import Mathlib

/-!
Verification of the Ingestion Normalization & Cataloging Engine of the
DataLakehouse repository (python-etl).  Each Python function relevant to the
claims is shallowly embedded as an executable Lean definition; results of
external libraries (pandas, chardet, MinIO, psycopg2, pypdf, python-docx,
python-pptx, PIL) are supplied through explicit environment records, matching
the spec's scoping of those libraries as external collaborators.

Python strings are modelled as `List Char` (with `String` wrappers at the
interfaces); the character classes of the CPython `re` module and `str`
methods are modelled over their ASCII fragment, which covers every character
any claim exercises.
-/

namespace DataLakehouse

/-! ## Character-level helpers (ASCII models of Python `str`/`re` classes) -/

/-- Python whitespace (`\s`, `str.strip()`), ASCII fragment. -/
def isPySpace (c : Char) : Bool :=
  c.toNat = 32 || c.toNat = 9 || c.toNat = 10 || c.toNat = 13 ||
  c.toNat = 11 || c.toNat = 12

/-- Python `str.isdigit()` / `\d`, ASCII fragment. -/
def isPyDigit (c : Char) : Bool :=
  48 ≤ c.toNat && c.toNat ≤ 57

/-- Python `\w` (word character), ASCII fragment: letters, digits, underscore. -/
def isPyWord (c : Char) : Bool :=
  (48 ≤ c.toNat && c.toNat ≤ 57) || (65 ≤ c.toNat && c.toNat ≤ 90) ||
  (97 ≤ c.toNat && c.toNat ≤ 122) || c.toNat = 95

/-- Python `str.lower()` on one character, ASCII fragment. -/
def pyLowerChar (c : Char) : Char :=
  if 65 ≤ c.toNat ∧ c.toNat ≤ 90 then Char.ofNat (c.toNat + 32) else c

/-- Python `s.strip(chars)` generalised: drop characters satisfying `p` from
both ends. -/
def pyStrip (p : Char → Bool) (l : List Char) : List Char :=
  ((l.dropWhile p).reverse.dropWhile p).reverse

/-- Python `s.strip()` (whitespace) on a string, as a char list. -/
def pyTrim (s : String) : List Char := pyStrip isPySpace s.data

/-- Python `s.lower()` on a string. -/
def pyLower (s : String) : String := ⟨s.data.map pyLowerChar⟩

/-! ## `infer_postgres_type` (structured_pipeline.py lines 139-204) -/

/-- A pandas cell value after the reader stage: a plain string or a
structured (dict/list) value carried with its textual representation. -/
inductive PyVal where
  | str (s : String)
  | structured (rep : String)
deriving DecidableEq, Repr

/-- Python `str(v)`: identity on strings, the textual representation for
dict/list values. -/
def PyVal.pyStr : PyVal → String
  | .str s => s
  | .structured r => r

/-- PostgreSQL type tags returned by `infer_postgres_type`.  The spec's
abstract tag `JSON` corresponds to the source's `'JSONB'`. -/
inductive PGType where
  | INTEGER
  | BIGINT
  | NUMERIC
  | TIMESTAMP
  | BOOLEAN
  | JSONB
  | TEXT
deriving DecidableEq, Repr

/-- Digits of a numeral to a natural number. -/
def digitsToNat (l : List Char) : Nat :=
  l.foldl (fun a c => a * 10 + (c.toNat - 48)) 0

/-- An exact decimal number `mantissa / 10 ^ scale`; the exact value of a
decimal numeral accepted by `pd.to_numeric`. -/
structure DecNum where
  mantissa : Int
  scale : Nat
deriving DecidableEq, Repr

/-- The number is integral (`v == int(v)` in the source's
`(numeric_series == numeric_series.astype(int)).all()` check). -/
def DecNum.isIntegral (x : DecNum) : Bool :=
  x.mantissa % (10 : Int) ^ x.scale = 0

/-- The number lies in the signed 32-bit range checked by the source
(`min_val >= -2147483648 and max_val <= 2147483647`), stated without
division: `m / 10^k ∈ [lo, hi]  ↔  lo * 10^k ≤ m ≤ hi * 10^k`. -/
def DecNum.inInt32Range (x : DecNum) : Bool :=
  (-2147483648) * (10 : Int) ^ x.scale ≤ x.mantissa &&
  x.mantissa ≤ 2147483647 * (10 : Int) ^ x.scale

/-- Modelled from pandas: `pd.to_numeric(v, errors='raise')` on one string.
Accepts an optional sign followed by a decimal numeral with at most one
point (the exponent forms accepted by Python floats are not needed by any
claim input and are omitted).  Returns the exact decimal value. -/
def pdToNumeric (s : String) : Option DecNum :=
  let l := pyTrim s
  let signed : Int × List Char :=
    match l with
    | '-' :: rest => (-1, rest)
    | '+' :: rest => (1, rest)
    | _ => (1, l)
  let sign := signed.1
  let body := signed.2
  let intPart := body.takeWhile isPyDigit
  let rest := body.dropWhile isPyDigit
  match rest with
  | [] =>
    if intPart.isEmpty then none
    else some ⟨sign * (digitsToNat intPart : Int), 0⟩
  | '.' :: frac =>
    if frac.all isPyDigit && !(intPart.isEmpty && frac.isEmpty) then
      some ⟨sign * (digitsToNat (intPart ++ frac) : Int), frac.length⟩
    else none
  | _ => none

/-- Model of `pd.to_numeric` over a value: dict/list values raise `TypeError`. -/
def pdToNumericVal : PyVal → Option DecNum
  | .str s => pdToNumeric s
  | .structured _ => none

/-- Modelled from pandas: `pd.to_datetime(v, errors='raise')` acceptance,
restricted to ISO `YYYY-MM-DD`-prefixed strings (all claim inputs are
rejected, as pandas rejects them). -/
def pdToDatetimeOk : PyVal → Bool
  | .structured _ => false
  | .str s =>
    match pyTrim s with
    | y1 :: y2 :: y3 :: y4 :: '-' :: m1 :: m2 :: '-' :: d1 :: d2 :: _ =>
      isPyDigit y1 && isPyDigit y2 && isPyDigit y3 && isPyDigit y4 &&
      isPyDigit m1 && isPyDigit m2 && isPyDigit d1 && isPyDigit d2
    | _ => false

/-- pandas `Series.unique()`: distinct values in first-seen order. -/
def pyUnique {α : Type} [DecidableEq α] (l : List α) : List α :=
  l.foldl (fun acc v => if v ∈ acc then acc else acc ++ [v]) []

/-- The fixed boolean-token vocabulary of `infer_postgres_type`. -/
def boolTokenVocab : List String :=
  ["true", "false", "1", "0", "yes", "no", "t", "f"]

/-- Is the (stripped) string JSON-like, i.e. starts with a brace or
bracket? -/
def jsonLikeStr (s : String) : Bool :=
  match pyTrim s with
  | c :: _ => c = '\x7b' || c = '['
  | [] => false

/-- Model of `infer_postgres_type` over a column of optional values (`none` models a
pandas null).  The series is assumed to have dtype `object` (string or
dict/list values), which is what the reader stage produces for every claim
input.  The 80% threshold `json_like >= len(sample_vals) * 0.8` is stated
with the denominator cleared. -/
def infer_postgres_type (series : List (Option PyVal)) : PGType :=
  -- if len(series) == 0 or series.isna().all(): return 'TEXT'
  if series.length = 0 ∨ series.all Option.isNone then .TEXT
  else
    -- sample = series.dropna()
    let sample := series.filterMap id
    if sample.length = 0 then .TEXT
    else
      match sample.head? with
      | some (.structured _) => .JSONB
      | _ =>
        -- JSON-string detection over the first 5 values, 80% threshold
        let sampleVals := sample.take 5
        let jsonLike := (sampleVals.filter fun v =>
          match v with
          | .str s => jsonLikeStr s
          | .structured _ => false).length
        if 10 * jsonLike ≥ 8 * sampleVals.length then .JSONB
        else
          -- numeric conversion of the whole sample
          match sample.mapM pdToNumericVal with
          | some qs =>
            if qs.all DecNum.isIntegral then
              if qs.all DecNum.inInt32Range then .INTEGER
              else .BIGINT
            else .NUMERIC
          | none =>
            -- datetime parse of the first 10 values
            if (sample.take 10).all pdToDatetimeOk then .TIMESTAMP
            else
              -- boolean vocabulary over ≤ 10 distinct values
              let uniqueLower :=
                pyUnique (((pyUnique sample).take 10).map fun v =>
                  pyLower v.pyStr)
              if uniqueLower.all (fun v => v ∈ boolTokenVocab) ∧
                  uniqueLower.length ≤ 2 then .BOOLEAN
              else .TEXT

/-- Convenience: a column of plain non-null strings. -/
def strColumn (l : List String) : List (Option PyVal) :=
  l.map fun s => some (.str s)

example : infer_postgres_type (strColumn ["3000000000", "1"]) = .BIGINT := by decide
example : infer_postgres_type (strColumn ["2024-01-02", "2023-12-31"]) = .TIMESTAMP := by decide

/-- C4: `infer_postgres_type` is a pure function of the sampled column and
returns INTEGER for `["1","2","3"]`, NUMERIC for `["1","2.5","3"]`, BOOLEAN
for `["true","false"]`, the JSON tag (source spelling `JSONB`) for two
JSON-object strings, TEXT for mixed garbage, and TEXT for an empty or
all-null column. -/
theorem claim_C4_infer_postgres_type_samples :
    infer_postgres_type (strColumn ["1", "2", "3"]) = .INTEGER ∧
    infer_postgres_type (strColumn ["1", "2.5", "3"]) = .NUMERIC ∧
    infer_postgres_type (strColumn ["true", "false"]) = .BOOLEAN ∧
    infer_postgres_type
      (strColumn ["\x7b\"a\":1\x7d", "\x7b\"b\":2\x7d"]) = .JSONB ∧
    infer_postgres_type
      (strColumn ["hello", "world!!", "not a number"]) = .TEXT ∧
    infer_postgres_type [] = .TEXT ∧
    infer_postgres_type [none, none] = .TEXT := by
  refine ⟨?_, ?_, ?_, ?_, ?_, ?_, ?_⟩ <;> decide

/-! ## `sanitize_column_name` (structured_pipeline.py lines 80-93) -/

/-- Model of `re.sub(r'[^\w\s]', '_', col)`: replace every character that is neither a
word character nor whitespace by an underscore. -/
def subNonWordSpace (l : List Char) : List Char :=
  l.map fun c => if isPyWord c || isPySpace c then c else '_'

/-- Model of `re.sub(r'\s+', '_', col)`: replace every maximal whitespace run by a
single underscore. -/
def subSpaceRuns : List Char → List Char
  | [] => []
  | [c] => if isPySpace c then ['_'] else [c]
  | c :: d :: rest =>
    if isPySpace c then
      if isPySpace d then subSpaceRuns (d :: rest)
      else '_' :: subSpaceRuns (d :: rest)
    else c :: subSpaceRuns (d :: rest)

/-- Is the character an underscore (used for `col.strip('_')`). -/
def isUnderscore (c : Char) : Bool := c.toNat = 95

/-- Model of `if col and col[0].isdigit(): col = 'col_' + col`. -/
def sanDigitPrefixStep (l : List Char) : List Char :=
  match l with
  | c :: _ => if isPyDigit c then 'c' :: 'o' :: 'l' :: '_' :: l else l
  | [] => l

/-- Model of `if not col: col = 'unnamed_column'`. -/
def sanEmptyFallback (l : List Char) : List Char :=
  if l.isEmpty then "unnamed_column".data else l

/-- Model of `sanitize_column_name` on the character list: strip, replace
non-word/non-space characters by `_`, collapse whitespace runs to `_`,
strip underscores, prefix `col_` when starting with a digit, fall back to
`unnamed_column` when empty, lowercase. -/
def sanitizeList (l : List Char) : List Char :=
  (sanEmptyFallback (sanDigitPrefixStep (pyStrip isUnderscore
    (subSpaceRuns (subNonWordSpace (pyStrip isPySpace l)))))).map pyLowerChar

/-- Model of `sanitize_column_name` (structured_pipeline.py lines 80-93). -/
def sanitize_column_name (s : String) : String :=
  ⟨sanitizeList s.data⟩

example : sanitize_column_name "Order #2023" = "order__2023" := by decide
example : sanitize_column_name "  9 lives  " = "col_9_lives" := by decide
example : sanitize_column_name "" = "unnamed_column" := by decide
example : sanitize_column_name "__" = "unnamed_column" := by decide

/-! ### Lemmas for idempotence of `sanitize_column_name` -/

lemma charOfNat_add32_toNat {c : Char} (h : c.toNat ≤ 90) :
    (Char.ofNat (c.toNat + 32)).toNat = c.toNat + 32 := by
  unfold Char.ofNat
  split
  · rfl
  · rename_i hcon
    exact absurd (Or.inl (by omega)) hcon

lemma pyLowerChar_pos {c : Char} (h : 65 ≤ c.toNat ∧ c.toNat ≤ 90) :
    pyLowerChar c = Char.ofNat (c.toNat + 32) := by
  unfold pyLowerChar
  rw [if_pos h]

lemma pyLowerChar_neg {c : Char} (h : ¬(65 ≤ c.toNat ∧ c.toNat ≤ 90)) :
    pyLowerChar c = c := by
  unfold pyLowerChar
  rw [if_neg h]

lemma pyLowerChar_toNat (c : Char) :
    (pyLowerChar c).toNat =
      if 65 ≤ c.toNat ∧ c.toNat ≤ 90 then c.toNat + 32 else c.toNat := by
  by_cases h : 65 ≤ c.toNat ∧ c.toNat ≤ 90
  · rw [pyLowerChar_pos h, if_pos h, charOfNat_add32_toNat h.2]
  · rw [pyLowerChar_neg h, if_neg h]

lemma isPyWord_iff (c : Char) :
    isPyWord c = true ↔
      (48 ≤ c.toNat ∧ c.toNat ≤ 57) ∨ (65 ≤ c.toNat ∧ c.toNat ≤ 90) ∨
      (97 ≤ c.toNat ∧ c.toNat ≤ 122) ∨ c.toNat = 95 := by
  simp only [isPyWord, Bool.or_eq_true, Bool.and_eq_true, decide_eq_true_eq]
  omega

lemma isPySpace_iff (c : Char) :
    isPySpace c = true ↔
      c.toNat = 32 ∨ c.toNat = 9 ∨ c.toNat = 10 ∨ c.toNat = 13 ∨
      c.toNat = 11 ∨ c.toNat = 12 := by
  simp only [isPySpace, Bool.or_eq_true, decide_eq_true_eq]
  omega

lemma isPyDigit_iff (c : Char) :
    isPyDigit c = true ↔ 48 ≤ c.toNat ∧ c.toNat ≤ 57 := by
  simp only [isPyDigit, Bool.and_eq_true, decide_eq_true_eq]

lemma isUnderscore_iff (c : Char) : isUnderscore c = true ↔ c.toNat = 95 := by
  simp only [isUnderscore, decide_eq_true_eq]

/-- A word character is not whitespace. -/
lemma not_space_of_word {c : Char} (h : isPyWord c = true) :
    isPySpace c = false := by
  rw [isPyWord_iff] at h
  rw [Bool.eq_false_iff, Ne, isPySpace_iff]
  omega

/-- Lowercasing preserves word characters. -/
lemma word_pyLowerChar {c : Char} (h : isPyWord c = true) :
    isPyWord (pyLowerChar c) = true := by
  rw [isPyWord_iff] at h ⊢
  rw [pyLowerChar_toNat]
  split <;> omega

/-- Lowercasing is idempotent on characters. -/
lemma pyLowerChar_idem (c : Char) :
    pyLowerChar (pyLowerChar c) = pyLowerChar c := by
  by_cases h : 65 ≤ c.toNat ∧ c.toNat ≤ 90
  · refine pyLowerChar_neg ?_
    rw [pyLowerChar_toNat, if_pos h]
    omega
  · rw [pyLowerChar_neg h, pyLowerChar_neg h]

/-- Lowercasing preserves digit-ness. -/
lemma isPyDigit_pyLowerChar (c : Char) :
    isPyDigit (pyLowerChar c) = isPyDigit c := by
  rw [Bool.eq_iff_iff, isPyDigit_iff, isPyDigit_iff, pyLowerChar_toNat]
  split <;> omega

/-- Lowercasing preserves being (or not being) an underscore. -/
lemma isUnderscore_pyLowerChar (c : Char) :
    isUnderscore (pyLowerChar c) = isUnderscore c := by
  rw [Bool.eq_iff_iff, isUnderscore_iff, isUnderscore_iff, pyLowerChar_toNat]
  split <;> omega

/-- Every character of `subNonWordSpace l` is a word char or whitespace. -/
lemma subNonWordSpace_chars {l : List Char} {c : Char}
    (h : c ∈ subNonWordSpace l) : isPyWord c || isPySpace c := by
  unfold subNonWordSpace at h
  obtain ⟨d, _, hd⟩ := List.mem_map.mp h
  by_cases hw : (isPyWord d || isPySpace d) = true
  · rw [if_pos hw] at hd
    subst hd
    exact hw
  · rw [if_neg hw] at hd
    subst hd
    decide

/-- Every character of `subSpaceRuns l` is a word char, provided every input
character was a word char or whitespace. -/
lemma subSpaceRuns_chars :
    ∀ l : List Char, (∀ c ∈ l, isPyWord c || isPySpace c) →
      ∀ c ∈ subSpaceRuns l, isPyWord c = true
  | [] => by
      intro _ c hc
      simp [subSpaceRuns] at hc
  | [a] => by
      intro h c hc
      unfold subSpaceRuns at hc
      split at hc
      · obtain rfl : c = '_' := by simpa using hc
        decide
      · rename_i hns
        obtain rfl : c = a := by simpa using hc
        rcases Bool.or_eq_true _ _ |>.mp (h c (List.mem_singleton_self c)) with hw | hs
        · exact hw
        · exact absurd hs hns
  | a :: b :: rest => by
      intro h c hc
      have hrec := subSpaceRuns_chars (b :: rest)
        (fun d hd => h d (List.mem_cons_of_mem _ hd))
      unfold subSpaceRuns at hc
      split at hc
      · split at hc
        · exact hrec c hc
        · rcases List.mem_cons.mp hc with rfl | hcm
          · decide
          · exact hrec c hcm
      · rename_i hns
        rcases List.mem_cons.mp hc with rfl | hcm
        · rcases Bool.or_eq_true _ _ |>.mp (h c (List.mem_cons_self c _)) with hw | hs
          · exact hw
          · exact absurd hs hns
        · exact hrec c hcm

/-- Lemma: `subSpaceRuns` is the identity on whitespace-free lists. -/
lemma subSpaceRuns_id :
    ∀ l : List Char, (∀ c ∈ l, isPySpace c = false) → subSpaceRuns l = l
  | [] => fun _ => rfl
  | [a] => by
      intro h
      unfold subSpaceRuns
      rw [if_neg (by simp [h a (List.mem_singleton_self a)])]
  | a :: b :: rest => by
      intro h
      unfold subSpaceRuns
      rw [if_neg (by simp [h a (List.mem_cons_self a _)])]
      rw [subSpaceRuns_id (b :: rest) (fun d hd => h d (List.mem_cons_of_mem _ hd))]

/-- Lemma: `subNonWordSpace` is the identity when every character is a word char. -/
lemma subNonWordSpace_id {l : List Char}
    (h : ∀ c ∈ l, isPyWord c = true) : subNonWordSpace l = l := by
  unfold subNonWordSpace
  conv_rhs => rw [show l = l.map id from (List.map_id l).symm]
  refine List.map_congr_left fun c hc => ?_
  rw [if_pos (by simp [h c hc])]
  rfl

/-- Lemma: `dropWhile` is the identity when the head does not satisfy `p`. -/
lemma dropWhile_id_of_head {p : Char → Bool} :
    ∀ {l : List Char}, (∀ c, l.head? = some c → p c = false) →
      l.dropWhile p = l
  | [], _ => rfl
  | a :: t, h => by
      rw [List.dropWhile_cons, if_neg (by simp [h a rfl])]

/-- The head of `dropWhile p l` does not satisfy `p`. -/
lemma head_dropWhile {p : Char → Bool} :
    ∀ {l : List Char} {c : Char}, (l.dropWhile p).head? = some c → p c = false
  | [], c, h => by simp at h
  | a :: t, c, h => by
      rw [List.dropWhile_cons] at h
      split at h
      · exact head_dropWhile h
      · rename_i hpa
        simp at h
        subst h
        exact Bool.not_eq_true _ |>.mp hpa

/-- Characters of `pyStrip p l` come from `l`. -/
lemma pyStrip_subset {p : Char → Bool} {l : List Char} {c : Char}
    (h : c ∈ pyStrip p l) : c ∈ l := by
  unfold pyStrip at h
  rw [List.mem_reverse] at h
  have h1 := (List.dropWhile_sublist p).subset h
  rw [List.mem_reverse] at h1
  exact (List.dropWhile_sublist p).subset h1

/-- The head of `pyStrip p l` does not satisfy `p`. -/
lemma pyStrip_head {p : Char → Bool} {l : List Char} {c : Char}
    (h : (pyStrip p l).head? = some c) : p c = false := by
  unfold pyStrip at h
  rw [List.head?_reverse] at h
  -- `c` is the last element of `dropWhile p (reverse (dropWhile p l))`,
  -- a suffix of `reverse (dropWhile p l)`, whose last is the head of
  -- `dropWhile p l`.
  obtain ⟨t, ht⟩ := @List.dropWhile_suffix _ ((l.dropWhile p).reverse) p
  rcases hne : (l.dropWhile p).reverse.dropWhile p with _ | ⟨a, u⟩
  · rw [hne] at h
    simp at h
  · have h2 : ((l.dropWhile p).reverse).getLast? = some c := by
      rw [← ht, List.getLast?_append_of_ne_nil _ (by rw [hne]; simp)]
      exact h
    rw [List.getLast?_reverse] at h2
    exact head_dropWhile h2

/-- The last element of `pyStrip p l` does not satisfy `p`. -/
lemma pyStrip_getLast {p : Char → Bool} {l : List Char} {c : Char}
    (h : (pyStrip p l).getLast? = some c) : p c = false := by
  unfold pyStrip at h
  rw [List.getLast?_reverse] at h
  exact head_dropWhile h

/-- Lemma: `pyStrip` is the identity when no character satisfies `p`. -/
lemma pyStrip_id_of_all {p : Char → Bool} {l : List Char}
    (h : ∀ c ∈ l, p c = false) : pyStrip p l = l := by
  unfold pyStrip
  rw [dropWhile_id_of_head (fun c hc => h c (List.mem_of_mem_head? hc))]
  rw [dropWhile_id_of_head (fun c hc => h c (by
    have := List.mem_of_mem_head? hc
    rwa [List.mem_reverse] at this))]
  exact List.reverse_reverse l

/-- Lemma: `pyStrip` is the identity when neither end satisfies `p`. -/
lemma pyStrip_id_of_ends {p : Char → Bool} {l : List Char}
    (hh : ∀ c, l.head? = some c → p c = false)
    (hl : ∀ c, l.getLast? = some c → p c = false) : pyStrip p l = l := by
  unfold pyStrip
  rw [dropWhile_id_of_head hh]
  rw [dropWhile_id_of_head (fun c hc => hl c (by rwa [List.head?_reverse] at hc))]
  exact List.reverse_reverse l

/-- Invariant satisfied by every output of `sanitizeList`: nonempty, only
lowercase-stable word characters, no underscore or digit at the start, no
underscore at the end. -/
def SanString (l : List Char) : Prop :=
  l ≠ [] ∧
  (∀ c ∈ l, isPyWord c = true ∧ pyLowerChar c = c) ∧
  (∀ c, l.head? = some c → isPyDigit c = false ∧ isUnderscore c = false) ∧
  (∀ c, l.getLast? = some c → isUnderscore c = false)

lemma sanDigitPrefixStep_getLast? :
    ∀ l : List Char, (sanDigitPrefixStep l).getLast? = l.getLast?
  | [] => rfl
  | c :: t => by
      show (if isPyDigit c then 'c' :: 'o' :: 'l' :: '_' :: c :: t
        else c :: t).getLast? = _
      split
      · show (['c', 'o', 'l', '_'] ++ (c :: t)).getLast? = _
        rw [List.getLast?_append_of_ne_nil _ (by simp)]
      · rfl

lemma sanDigitPrefixStep_ne_nil : ∀ {l : List Char}, l ≠ [] → sanDigitPrefixStep l ≠ []
  | [], h => absurd rfl h
  | c :: t, _ => by
      show (if isPyDigit c then 'c' :: 'o' :: 'l' :: '_' :: c :: t
        else c :: t) ≠ []
      split <;> simp

lemma sanDigitPrefixStep_chars :
    ∀ {l : List Char} {c : Char}, c ∈ sanDigitPrefixStep l →
      c = 'c' ∨ c = 'o' ∨ c = 'l' ∨ c = '_' ∨ c ∈ l
  | [], c, hc => Or.inr (Or.inr (Or.inr (Or.inr hc)))
  | d :: t, c, hc => by
      revert hc
      show c ∈ (if isPyDigit d then 'c' :: 'o' :: 'l' :: '_' :: d :: t
        else d :: t) → _
      split
      · intro hc
        simp only [List.mem_cons] at hc ⊢
        tauto
      · intro hc
        tauto

lemma sanDigitPrefixStep_head? :
    ∀ {l : List Char} {c : Char}, (sanDigitPrefixStep l).head? = some c →
      c = 'c' ∨ (l.head? = some c ∧ isPyDigit c = false)
  | [], c, hc => by simp [sanDigitPrefixStep] at hc
  | d :: t, c, hc => by
      revert hc
      show (if isPyDigit d then 'c' :: 'o' :: 'l' :: '_' :: d :: t
        else d :: t).head? = some c → _
      split
      · intro hc
        left
        simpa using hc.symm
      · rename_i hd
        intro hc
        right
        have hcd : d = c := by simpa using hc
        subst hcd
        exact ⟨rfl, Bool.not_eq_true _ |>.mp hd⟩

lemma sanDigitPrefixStep_id :
    ∀ {l : List Char}, (∀ c, l.head? = some c → isPyDigit c = false) →
      sanDigitPrefixStep l = l
  | [], _ => rfl
  | c :: t, h => by
      show (if isPyDigit c then 'c' :: 'o' :: 'l' :: '_' :: c :: t
        else c :: t) = c :: t
      rw [if_neg (by simp [h c rfl])]

lemma unnamedColumn_word :
    ∀ c ∈ "unnamed_column".data, isPyWord c = true ∧ pyLowerChar c = c := by
  decide

lemma unnamedColumn_head? : ("unnamed_column".data).head? = some 'u' := by decide

lemma unnamedColumn_getLast? : ("unnamed_column".data).getLast? = some 'n' := by
  decide

/-- The output of `sanitizeList` always satisfies the invariant. -/
lemma sanitizeList_sanitized (l : List Char) : SanString (sanitizeList l) := by
  unfold sanitizeList
  -- characters surviving to the underscore-strip stage are word characters
  have hword2 : ∀ c ∈ subSpaceRuns (subNonWordSpace (pyStrip isPySpace l)),
      isPyWord c = true :=
    subSpaceRuns_chars _ (fun c hc => subNonWordSpace_chars hc)
  set m := pyStrip isUnderscore
    (subSpaceRuns (subNonWordSpace (pyStrip isPySpace l))) with hm
  have hmword : ∀ c ∈ m, isPyWord c = true :=
    fun c hc => hword2 c (pyStrip_subset hc)
  have hmhead : ∀ c, m.head? = some c → isUnderscore c = false :=
    fun c hc => pyStrip_head hc
  have hmlast : ∀ c, m.getLast? = some c → isUnderscore c = false :=
    fun c hc => pyStrip_getLast hc
  -- stage 4/5: either the fallback constant or the digit-prefixed strip
  set q := sanEmptyFallback (sanDigitPrefixStep m) with hq
  have hq_cases : q = "unnamed_column".data ∨ (q = sanDigitPrefixStep m ∧ m ≠ []) := by
    rw [hq]
    unfold sanEmptyFallback
    by_cases hmnil : m = []
    · rw [hmnil]
      left
      rfl
    · right
      rw [if_neg (by simp [List.isEmpty_iff, sanDigitPrefixStep_ne_nil hmnil])]
      exact ⟨rfl, hmnil⟩
  have hq_ne : q ≠ [] := by
    rcases hq_cases with hcase | ⟨hcase, hmne⟩
    · rw [hcase]
      decide
    · rw [hcase]
      exact sanDigitPrefixStep_ne_nil hmne
  have hq_word : ∀ c ∈ q, isPyWord c = true := by
    intro c hc
    rcases hq_cases with hcase | ⟨hcase, _⟩
    · rw [hcase] at hc
      exact (unnamedColumn_word c hc).1
    · rw [hcase] at hc
      rcases sanDigitPrefixStep_chars hc with rfl | rfl | rfl | rfl | hcm
      · decide
      · decide
      · decide
      · decide
      · exact hmword c hcm
  have hq_head : ∀ c, q.head? = some c →
      isPyDigit c = false ∧ isUnderscore c = false := by
    intro c hc
    rcases hq_cases with hcase | ⟨hcase, _⟩
    · rw [hcase, unnamedColumn_head?] at hc
      obtain rfl : 'u' = c := Option.some.inj hc
      exact ⟨by decide, by decide⟩
    · rw [hcase] at hc
      rcases sanDigitPrefixStep_head? hc with rfl | ⟨hhm, hdig⟩
      · exact ⟨by decide, by decide⟩
      · exact ⟨hdig, hmhead c hhm⟩
  have hq_last : ∀ c, q.getLast? = some c → isUnderscore c = false := by
    intro c hc
    rcases hq_cases with hcase | ⟨hcase, _⟩
    · rw [hcase, unnamedColumn_getLast?] at hc
      obtain rfl : 'n' = c := Option.some.inj hc
      decide
    · rw [hcase, sanDigitPrefixStep_getLast?] at hc
      exact hmlast c hc
  -- transfer the facts through the final lowercase map
  refine ⟨?_, ?_, ?_, ?_⟩
  · intro hmapnil
    rw [List.map_eq_nil_iff] at hmapnil
    exact hq_ne hmapnil
  · intro c hc
    obtain ⟨d, hd, rfl⟩ := List.mem_map.mp hc
    exact ⟨word_pyLowerChar (hq_word d hd), pyLowerChar_idem d⟩
  · intro c hc
    rw [List.head?_map] at hc
    match hqh : q.head? with
    | none => rw [hqh] at hc; simp at hc
    | some d =>
      rw [hqh] at hc
      obtain rfl : pyLowerChar d = c := by simpa using hc
      obtain ⟨h1, h2⟩ := hq_head d hqh
      rw [isPyDigit_pyLowerChar, isUnderscore_pyLowerChar]
      exact ⟨h1, h2⟩
  · intro c hc
    rw [List.getLast?_map] at hc
    match hql : q.getLast? with
    | none => rw [hql] at hc; simp at hc
    | some d =>
      rw [hql] at hc
      obtain rfl : pyLowerChar d = c := by simpa using hc
      rw [isUnderscore_pyLowerChar]
      exact hq_last d hql

/-- Lemma: `sanitizeList` is the identity on strings satisfying the invariant. -/
lemma sanitizeList_fixed {l : List Char} (h : SanString l) :
    sanitizeList l = l := by
  obtain ⟨hne, hchars, hhead, hlast⟩ := h
  have hword : ∀ c ∈ l, isPyWord c = true := fun c hc => (hchars c hc).1
  have hnospace : ∀ c ∈ l, isPySpace c = false :=
    fun c hc => not_space_of_word (hword c hc)
  unfold sanitizeList
  rw [pyStrip_id_of_all hnospace, subNonWordSpace_id hword,
    subSpaceRuns_id _ hnospace,
    pyStrip_id_of_ends (fun c hc => (hhead c hc).2) hlast]
  rw [sanDigitPrefixStep_id (fun c hc => (hhead c hc).1)]
  have h5 : sanEmptyFallback l = l := by
    unfold sanEmptyFallback
    rw [if_neg (by simpa using hne)]
  rw [h5]
  have h6 : l.map pyLowerChar = l.map id :=
    List.map_congr_left fun c hc => (hchars c hc).2
  rw [h6, List.map_id]

/-- C8: `sanitize_column_name` maps `"Order #2023"` to `"order__2023"`, and
the transform is idempotent: applying it twice gives the same result as
applying it once, for every input string. -/
theorem claim_C8_sanitize_column_name_idempotent :
    sanitize_column_name "Order #2023" = "order__2023" ∧
    ∀ s : String,
      sanitize_column_name (sanitize_column_name s) = sanitize_column_name s := by
  refine ⟨by decide, fun s => ?_⟩
  exact congrArg String.mk (sanitizeList_fixed (sanitizeList_sanitized s.data))

/-! ## `detect_delimiter` fallback scoring (structured_pipeline.py lines 32-77)

The grammar-based `csv.Sniffer().sniff` attempt is an external-library call;
what follows models the fallback path taken when the sniffer raises.
-/

/-- Python `s.split(c)` on character lists. -/
def splitOnChar (c : Char) : List Char → List (List Char)
  | [] => [[]]
  | a :: t =>
    let r := splitOnChar c t
    if a = c then [] :: r
    else
      match r with
      | h :: t2 => (a :: h) :: t2
      | [] => [[a]]

/-- The candidate delimiters of the fallback
(`delimiters = [',', ';', '\t', '|', ':']`). -/
def candidateDelims : List Char := [',', ';', '\t', '|', ':']

/-- Model of `lines = sample.split('\n')[:10]` over `sample = text_sample[:5000]`. -/
def delimLines (text : List Char) : List (List Char) :=
  (splitOnChar '\n' (text.take 5000)).take 10

/-- The non-blank lines (`if line.strip():`) among the first ten lines of the
sample; occurrence counts are collected exactly for these lines. -/
def delimNbLines (text : List Char) : List (List Char) :=
  (delimLines text).filter fun l => !(pyStrip isPySpace l).isEmpty

/-- Model of `delimiter_counts[delim]`: the per-line occurrence counts of a candidate
over the non-blank lines. -/
def delimCounts (nb : List (List Char)) (d : Char) : List Nat :=
  nb.map fun l => l.count d

/-- Model of `avg_count = sum(counts) / len(counts)`. -/
def delimAvg (nb : List (List Char)) (d : Char) : ℚ :=
  ((delimCounts nb d).sum : ℚ) / ((delimCounts nb d).length : ℚ)

/-- Model of `variance = sum((c - avg_count) ** 2 for c in counts) / len(counts)`. -/
def delimVar (nb : List (List Char)) (d : Char) : ℚ :=
  (List.map (fun c : Nat => ((c : ℚ) - delimAvg nb d) ^ 2)
    (delimCounts nb d)).sum / ((delimCounts nb d).length : ℚ)

/-- The score `mean_count / (1 + variance)` of a candidate delimiter over the
non-blank lines, taken as 0 when the delimiter occurs in no line (such
candidates are skipped by the loop, and the running best score starts at
0). -/
def delimScore (nb : List (List Char)) (d : Char) : ℚ :=
  if (delimCounts nb d).isEmpty || (delimCounts nb d).all (· = 0) then 0
  else delimAvg nb d / (1 + delimVar nb d)

/-- One iteration of the fallback loop body
(lines 63-74 of structured_pipeline.py). -/
def delimStep (nb : List (List Char)) (acc : Char × ℚ) (d : Char) :
    Char × ℚ :=
  if (delimCounts nb d).isEmpty || (delimCounts nb d).all (· = 0) then acc
  else if 0 < delimAvg nb d then
    if acc.2 < delimAvg nb d / (1 + delimVar nb d) then
      (d, delimAvg nb d / (1 + delimVar nb d))
    else acc
  else acc

/-- Model of `detect_delimiter`'s fallback path: score each candidate over the line
sample and keep the best (strictly improving) one, starting from
`best_delimiter = ','`, `best_score = 0`. -/
def detect_delimiter_fallback (text : List Char) : Char :=
  let lines := delimLines text
  if lines.isEmpty then ','
  else (candidateDelims.foldl (delimStep (delimNbLines text)) (',', 0)).1

example : delimNbLines "a,b\n\nc,d".data = [['a', ',', 'b'], ['c', ',', 'd']] := by
  decide
example : splitOnChar '\n' "a\nb".data = [['a'], ['b']] := by decide

lemma delimLen_pos {nb : List (List Char)} {d : Char}
    (h1 : (delimCounts nb d).isEmpty = false) :
    0 < ((delimCounts nb d).length : ℚ) := by
  have hnil : delimCounts nb d ≠ [] := by
    intro hnil
    rw [hnil] at h1
    simp at h1
  have := List.length_pos_of_ne_nil hnil
  exact_mod_cast this

lemma delimVar_nonneg (nb : List (List Char)) (d : Char)
    (h1 : (delimCounts nb d).isEmpty = false) :
    0 ≤ delimVar nb d := by
  unfold delimVar
  apply div_nonneg _ (le_of_lt (delimLen_pos h1))
  apply List.sum_nonneg
  intro x hx
  obtain ⟨y, _, rfl⟩ := List.mem_map.mp hx
  positivity

lemma delimScore_nonneg (nb : List (List Char)) (d : Char) :
    0 ≤ delimScore nb d := by
  unfold delimScore
  split
  · exact le_refl 0
  · rename_i hne
    rw [Bool.or_eq_true, not_or, Bool.not_eq_true, Bool.not_eq_true] at hne
    obtain ⟨h1, _⟩ := hne
    have havg : 0 ≤ delimAvg nb d := by
      unfold delimAvg
      apply div_nonneg _ (le_of_lt (delimLen_pos h1))
      positivity
    have hvar := delimVar_nonneg nb d h1
    apply div_nonneg havg
    linarith

lemma delimScore_avg_pos {nb : List (List Char)} {d : Char}
    (hne : ((delimCounts nb d).isEmpty ||
      (delimCounts nb d).all (· = 0)) = false) :
    0 < delimAvg nb d := by
  rw [Bool.or_eq_false_iff] at hne
  obtain ⟨h1, h2⟩ := hne
  unfold delimAvg
  apply div_pos _ (delimLen_pos h1)
  rw [List.all_eq_false] at h2
  obtain ⟨x, hx, hx0⟩ := h2
  have hx0' : x ≠ 0 := by simpa using hx0
  have hsum : 1 ≤ (delimCounts nb d).sum := by
    calc 1 ≤ x := Nat.one_le_iff_ne_zero.mpr hx0'
    _ ≤ (delimCounts nb d).sum :=
        List.single_le_sum (fun _ _ => Nat.zero_le _) _ hx
  exact_mod_cast Nat.lt_of_lt_of_le Nat.zero_lt_one hsum

/-- The loop body is an argmax step: it replaces the accumulator exactly when
the candidate's score strictly beats the running best. -/
lemma delimStep_eq (nb : List (List Char)) (acc : Char × ℚ) (d : Char)
    (hacc : 0 ≤ acc.2) :
    delimStep nb acc d =
      if acc.2 < delimScore nb d then (d, delimScore nb d) else acc := by
  unfold delimStep delimScore
  by_cases hcond : ((delimCounts nb d).isEmpty ||
      (delimCounts nb d).all (· = 0)) = true
  · rw [if_pos hcond, if_pos hcond, if_neg (not_lt.mpr hacc)]
  · have hc2 : ((delimCounts nb d).isEmpty ||
        (delimCounts nb d).all (· = 0)) = false := by
      revert hcond
      cases ((delimCounts nb d).isEmpty || (delimCounts nb d).all (· = 0)) <;>
        simp
    rw [if_neg hcond, if_neg hcond, if_pos (delimScore_avg_pos hc2)]

/-- Fold invariant: the accumulator's score never decreases, dominates every
processed candidate, and is either the initial accumulator or the score of
the currently-best candidate. -/
lemma delimFold_argmax (nb : List (List Char)) :
    ∀ (ds : List Char) (acc : Char × ℚ), 0 ≤ acc.2 →
      0 ≤ (ds.foldl (delimStep nb) acc).2 ∧
      acc.2 ≤ (ds.foldl (delimStep nb) acc).2 ∧
      (∀ d ∈ ds, delimScore nb d ≤ (ds.foldl (delimStep nb) acc).2) ∧
      (ds.foldl (delimStep nb) acc = acc ∨
        (ds.foldl (delimStep nb) acc).2 =
          delimScore nb (ds.foldl (delimStep nb) acc).1)
  | [], acc, hacc => ⟨hacc, le_refl _, by simp, Or.inl rfl⟩
  | d :: ds, acc, hacc => by
      rw [List.foldl_cons, delimStep_eq nb acc d hacc]
      by_cases hlt : acc.2 < delimScore nb d
      · rw [if_pos hlt]
        have hpos : (0 : ℚ) ≤ (d, delimScore nb d).2 := delimScore_nonneg nb d
        obtain ⟨ih0, ih1, ih2, ih3⟩ := delimFold_argmax nb ds (d, delimScore nb d) hpos
        refine ⟨ih0, le_trans (le_of_lt hlt) ih1, ?_, ?_⟩
        · intro d2 hd2
          rcases List.mem_cons.mp hd2 with rfl | hd2m
          · exact ih1
          · exact ih2 d2 hd2m
        · rcases ih3 with heq | hsc
          · right
            rw [heq]
          · right
            exact hsc
      · rw [if_neg hlt]
        obtain ⟨ih0, ih1, ih2, ih3⟩ := delimFold_argmax nb ds acc hacc
        refine ⟨ih0, ih1, ?_, ih3⟩
        intro d2 hd2
        rcases List.mem_cons.mp hd2 with rfl | hd2m
        · exact le_trans (le_of_not_lt hlt) ih1
        · exact ih2 d2 hd2m

lemma splitOnChar_ne_nil (c : Char) : ∀ l : List Char, splitOnChar c l ≠ []
  | [] => by simp [splitOnChar]
  | a :: t => by
      show (if a = c then [] :: splitOnChar c t
        else match splitOnChar c t with
          | h :: t2 => (a :: h) :: t2
          | [] => [[a]]) ≠ []
      split
      · simp
      · split <;> simp

lemma delimLines_ne_nil (text : List Char) : delimLines text ≠ [] := by
  unfold delimLines
  rcases hsp : splitOnChar '\n' (text.take 5000) with _ | ⟨x, xs⟩
  · exact absurd hsp (splitOnChar_ne_nil '\n' _)
  · simp

/-- When every candidate's counts are all zero, the loop never updates the
accumulator. -/
lemma delimFold_const (nb : List (List Char)) :
    ∀ (ds : List Char) (acc : Char × ℚ),
      (∀ d ∈ ds, (delimCounts nb d).all (· = 0) = true) →
      ds.foldl (delimStep nb) acc = acc
  | [], _, _ => rfl
  | d :: ds, acc, h => by
      rw [List.foldl_cons]
      have hstep : delimStep nb acc d = acc := by
        unfold delimStep
        rw [if_pos (by rw [h d (List.mem_cons_self d _)]; simp)]
      rw [hstep]
      exact delimFold_const nb ds acc
        (fun d2 hd2 => h d2 (List.mem_cons_of_mem _ hd2))

/-- C6: when the grammar-based sniff fails, `detect_delimiter` scores each
candidate among comma, semicolon, tab, pipe and colon over the sampled
lines by `mean_count / (1 + variance)` of the per-line occurrence counts and
returns a candidate of maximal score (first-seen wins ties, and comma is
returned when no candidate occurs at all). -/
theorem claim_C6_detect_delimiter_fallback_argmax
    (text : List Char) (d : Char) (hd : d ∈ candidateDelims) :
    delimScore (delimNbLines text) d ≤
      delimScore (delimNbLines text) (detect_delimiter_fallback text) ∧
    ((∀ d2 ∈ candidateDelims,
        (delimCounts (delimNbLines text) d2).all (· = 0) = true) →
      detect_delimiter_fallback text = ',') := by
  have hfun : detect_delimiter_fallback text =
      (candidateDelims.foldl (delimStep (delimNbLines text)) (',', 0)).1 := by
    unfold detect_delimiter_fallback
    rw [if_neg (by simp [List.isEmpty_iff, delimLines_ne_nil text])]
  obtain ⟨h0, h1, h2, h3⟩ :=
    delimFold_argmax (delimNbLines text) candidateDelims (',', 0) (le_refl 0)
  constructor
  · rw [hfun]
    rcases h3 with heq | hsc
    · rw [heq] at h2 ⊢
      exact le_trans (h2 d hd) (delimScore_nonneg _ ',')
    · rw [← hsc]
      exact h2 d hd
  · intro hall
    rw [hfun, delimFold_const _ _ _ hall]

/-- Witness for C6 at a concrete candidate and sample. -/
theorem claim_C6_witness :
    (';' ∈ candidateDelims) ∧
    (delimScore (delimNbLines "a;b\nc;d".data) ';' ≤
      delimScore (delimNbLines "a;b\nc;d".data)
        (detect_delimiter_fallback "a;b\nc;d".data)) :=
  ⟨by decide,
    (claim_C6_detect_delimiter_fallback_argmax "a;b\nc;d".data ';'
      (by decide)).1⟩

/-! ## `LakehouseETL.update_catalog` (etl_manager.py lines 35-95)

The upsert issues `INSERT ... ON CONFLICT (bucket_name, object_name) DO
UPDATE SET object_size/file_format/row_count/text_extracted/content_hash/
uploaded_by/metadata = EXCLUDED..., last_modified = CURRENT_TIMESTAMP`.
`catalog_id` (a `SERIAL` primary key) and `created_at`
(`DEFAULT CURRENT_TIMESTAMP`) are set on insert and never listed in the
`SET` clause.  The table is modelled as a row list with a sequence counter;
timestamps are abstract `Nat` instants supplied per call.
-/

/-- The non-key column values carried by one `update_catalog` call. -/
structure CatalogArgs where
  object_size : Option Int
  file_format : Option String
  row_count : Option Int
  text_extracted : Bool
  content_hash : Option String
  uploaded_by : Option Int
  metadata : String
deriving DecidableEq, Repr

/-- One row of `minio_data_catalog`. -/
structure CatalogRow where
  catalog_id : Nat
  bucket_name : String
  object_name : String
  object_size : Option Int
  file_format : Option String
  row_count : Option Int
  text_extracted : Bool
  content_hash : Option String
  uploaded_by : Option Int
  metadata : String
  created_at : Nat
  last_modified : Option Nat
deriving DecidableEq, Repr

/-- The catalog table plus the `SERIAL` sequence state. -/
structure Catalog where
  rows : List CatalogRow
  nextId : Nat
deriving DecidableEq, Repr

/-- Does a row match the `(bucket_name, object_name)` key? -/
def keyMatch (b o : String) (r : CatalogRow) : Bool :=
  r.bucket_name = b && r.object_name = o

/-- All rows of the catalog holding the given key. -/
def keyRows (cat : Catalog) (b o : String) : List CatalogRow :=
  cat.rows.filter (keyMatch b o)

/-- The `DO UPDATE SET ...` clause applied to an existing row: overwrite the
argument columns and `last_modified`, keep `catalog_id`, the key and
`created_at`. -/
def mergeRow (r : CatalogRow) (a : CatalogArgs) (now : Nat) : CatalogRow :=
  { r with
    object_size := a.object_size
    file_format := a.file_format
    row_count := a.row_count
    text_extracted := a.text_extracted
    content_hash := a.content_hash
    uploaded_by := a.uploaded_by
    metadata := a.metadata
    last_modified := some now }

/-- A freshly inserted row: next serial id, `created_at` defaulted to the
current instant, `last_modified` NULL. -/
def freshRow (id : Nat) (b o : String) (a : CatalogArgs) (now : Nat) :
    CatalogRow :=
  { catalog_id := id
    bucket_name := b
    object_name := o
    object_size := a.object_size
    file_format := a.file_format
    row_count := a.row_count
    text_extracted := a.text_extracted
    content_hash := a.content_hash
    uploaded_by := a.uploaded_by
    metadata := a.metadata
    created_at := now
    last_modified := none }

/-- Model of `update_catalog`: insert-or-update keyed by `(bucket_name,
object_name)`. -/
def update_catalog (b o : String) (a : CatalogArgs) (now : Nat)
    (cat : Catalog) : Catalog :=
  if cat.rows.any (keyMatch b o) then
    { cat with rows := cat.rows.map fun r =>
        if keyMatch b o r then mergeRow r a now else r }
  else
    { rows := cat.rows ++ [freshRow cat.nextId b o a now]
      nextId := cat.nextId + 1 }

/-- The `UNIQUE(bucket_name, object_name)` constraint: pairwise distinct
keys. -/
def CatalogWF (cat : Catalog) : Prop :=
  cat.rows.Pairwise fun r1 r2 =>
    r1.bucket_name ≠ r2.bucket_name ∨ r1.object_name ≠ r2.object_name

lemma keyMatch_iff {b o : String} {r : CatalogRow} :
    keyMatch b o r = true ↔ r.bucket_name = b ∧ r.object_name = o := by
  simp [keyMatch]

lemma filter_key_nil_or_singleton (b o : String) :
    ∀ rows : List CatalogRow,
      rows.Pairwise (fun r1 r2 =>
        r1.bucket_name ≠ r2.bucket_name ∨ r1.object_name ≠ r2.object_name) →
      rows.filter (keyMatch b o) = [] ∨
        ∃ r, rows.filter (keyMatch b o) = [r]
  | [], _ => Or.inl rfl
  | r :: rs, hp => by
      rw [List.pairwise_cons] at hp
      obtain ⟨hr, hrs⟩ := hp
      by_cases hm : keyMatch b o r = true
      · right
        refine ⟨r, ?_⟩
        rw [List.filter_cons_of_pos hm]
        have hnone : rs.filter (keyMatch b o) = [] := by
          rw [List.filter_eq_nil_iff]
          intro r2 hr2 hm2
          obtain ⟨hb1, ho1⟩ := keyMatch_iff.mp hm
          obtain ⟨hb2, ho2⟩ := keyMatch_iff.mp hm2
          rcases hr r2 hr2 with hne | hne
          · exact hne (hb1.trans hb2.symm)
          · exact hne (ho1.trans ho2.symm)
        rw [hnone]
      · rw [List.filter_cons_of_neg (by simpa using hm)]
        exact filter_key_nil_or_singleton b o rs hrs

/-- With the uniqueness constraint, a key owns at most one row. -/
lemma keyRows_nil_or_singleton {cat : Catalog} (hWF : CatalogWF cat)
    (b o : String) :
    keyRows cat b o = [] ∨ ∃ r, keyRows cat b o = [r] :=
  filter_key_nil_or_singleton b o cat.rows hWF

/-- Filtering commutes with a conditional map whose function preserves the
predicate. -/
lemma filter_condMap_comm {α : Type} {p : α → Bool} {f : α → α}
    (hf : ∀ x, p (f x) = p x) :
    ∀ l : List α,
      (l.map fun x => if p x then f x else x).filter p = (l.filter p).map f
  | [] => rfl
  | a :: t => by
      rw [List.map_cons]
      by_cases hpa : p a = true
      · rw [if_pos hpa, List.filter_cons_of_pos (by rw [hf]; exact hpa),
          List.filter_cons_of_pos hpa, List.map_cons,
          filter_condMap_comm hf t]
      · rw [if_neg hpa,
          List.filter_cons_of_neg (by simpa using hpa),
          List.filter_cons_of_neg (by simpa using hpa),
          filter_condMap_comm hf t]

lemma keyMatch_mergeRow (b o : String) (r : CatalogRow) (a : CatalogArgs)
    (now : Nat) : keyMatch b o (mergeRow r a now) = keyMatch b o r := rfl

/-- Updating an existing key rewrites its unique row in place. -/
lemma update_catalog_existing {cat : Catalog} {b o : String} {r0 : CatalogRow}
    (hkr : keyRows cat b o = [r0]) (a : CatalogArgs) (now : Nat) :
    keyRows (update_catalog b o a now cat) b o = [mergeRow r0 a now] := by
  have hr0 : r0 ∈ cat.rows.filter (keyMatch b o) := by
    unfold keyRows at hkr
    rw [hkr]
    exact List.mem_singleton_self r0
  have hany : cat.rows.any (keyMatch b o) = true := by
    rw [List.any_eq_true]
    obtain ⟨hmem, hm⟩ := List.mem_filter.mp hr0
    exact ⟨r0, hmem, hm⟩
  unfold update_catalog
  rw [if_pos hany]
  unfold keyRows at hkr ⊢
  rw [filter_condMap_comm (fun x => keyMatch_mergeRow b o x a now) cat.rows,
    hkr]
  rfl

/-- Inserting a fresh key appends exactly one matching row. -/
lemma update_catalog_fresh {cat : Catalog} {b o : String}
    (hkr : keyRows cat b o = []) (a : CatalogArgs) (now : Nat) :
    keyRows (update_catalog b o a now cat) b o =
      [freshRow cat.nextId b o a now] := by
  have hnone : cat.rows.any (keyMatch b o) = false := by
    rw [Bool.eq_false_iff, Ne, List.any_eq_true]
    rintro ⟨x, hx, hmx⟩
    unfold keyRows at hkr
    rw [List.filter_eq_nil_iff] at hkr
    exact hkr x hx hmx
  unfold update_catalog
  rw [hnone]
  simp only [Bool.false_eq_true, if_false]
  unfold keyRows at hkr ⊢
  rw [List.filter_append, hkr, List.nil_append,
    List.filter_cons_of_pos (by rw [keyMatch_iff]; exact ⟨rfl, rfl⟩)]
  rfl

/-- C1: two successive `update_catalog` calls with the same
`(bucket_name, object_name)` and differing size/row_count leave exactly one
row for that key; its `object_size`/`row_count` come from the second call
while `created_at` and `catalog_id` are unchanged from the first call. -/
theorem claim_C1_update_catalog_idempotent_upsert
    (cat : Catalog) (hWF : CatalogWF cat) (b o : String)
    (a1 a2 : CatalogArgs) (t1 t2 : Nat)
    (hdiff : a1.object_size ≠ a2.object_size ∨ a1.row_count ≠ a2.row_count) :
    ∃ r1 r2 : CatalogRow,
      keyRows (update_catalog b o a1 t1 cat) b o = [r1] ∧
      keyRows (update_catalog b o a2 t2 (update_catalog b o a1 t1 cat)) b o =
        [r2] ∧
      r2.object_size = a2.object_size ∧ r2.row_count = a2.row_count ∧
      r2.created_at = r1.created_at ∧ r2.catalog_id = r1.catalog_id := by
  rcases keyRows_nil_or_singleton hWF b o with hnil | ⟨r0, hr0⟩
  · have h1 := update_catalog_fresh hnil a1 t1
    have h2 := update_catalog_existing h1 a2 t2
    exact ⟨_, _, h1, h2, rfl, rfl, rfl, rfl⟩
  · have h1 := update_catalog_existing hr0 a1 t1
    have h2 := update_catalog_existing h1 a2 t2
    exact ⟨_, _, h1, h2, rfl, rfl, rfl, rfl⟩

/-- Witness for C1: two calls on an initially empty catalog. -/
theorem claim_C1_witness :
    CatalogWF ⟨[], 1⟩ ∧
    ((⟨some 10, some "csv", some 5, false, none, none, "m1"⟩ :
        CatalogArgs).object_size ≠
      (⟨some 20, some "csv", some 7, false, none, none, "m2"⟩ :
        CatalogArgs).object_size ∨
      (⟨some 10, some "csv", some 5, false, none, none, "m1"⟩ :
        CatalogArgs).row_count ≠
      (⟨some 20, some "csv", some 7, false, none, none, "m2"⟩ :
        CatalogArgs).row_count) ∧
    (∃ r1 r2 : CatalogRow,
      keyRows (update_catalog "lakehouse-data" "raw/x.csv"
        ⟨some 10, some "csv", some 5, false, none, none, "m1"⟩ 100 ⟨[], 1⟩)
        "lakehouse-data" "raw/x.csv" = [r1] ∧
      keyRows (update_catalog "lakehouse-data" "raw/x.csv"
        ⟨some 20, some "csv", some 7, false, none, none, "m2"⟩ 200
        (update_catalog "lakehouse-data" "raw/x.csv"
          ⟨some 10, some "csv", some 5, false, none, none, "m1"⟩ 100 ⟨[], 1⟩))
        "lakehouse-data" "raw/x.csv" = [r2] ∧
      r2.object_size = some 20 ∧ r2.row_count = some 7 ∧
      r2.created_at = r1.created_at ∧ r2.catalog_id = r1.catalog_id) :=
  ⟨by unfold CatalogWF; exact List.Pairwise.nil, by decide,
    claim_C1_update_catalog_idempotent_upsert ⟨[], 1⟩
      (by unfold CatalogWF; exact List.Pairwise.nil)
      "lakehouse-data" "raw/x.csv" _ _ 100 200 (by decide)⟩

/-! ## `detect_encoding` and `read_csv_file`
(structured_pipeline.py lines 15-29 and 229-286) -/

/-- The result of the external `chardet.detect` call: a guessed encoding
(possibly `None`) and a confidence in `[0, 1]`. -/
structure ChardetResult where
  encoding : Option String
  confidence : ℚ

/-- Model of `detect_encoding`: below confidence 0.7 it returns the fixed fallback
list `['utf-8', 'latin-1', 'iso-8859-1', 'cp1252']`; otherwise the detected
encoding alone (`utf-8` when chardet reported `None`). -/
def detect_encoding (r : ChardetResult) : List String :=
  if r.confidence < 7 / 10 then ["utf-8", "latin-1", "iso-8859-1", "cp1252"]
  else
    match r.encoding with
    | some e => [e]
    | none => ["utf-8"]

/-- Shape of a pandas DataFrame, as far as the reader logic observes it. -/
structure PandasDf where
  nrows : Nat
  ncols : Nat
deriving DecidableEq, Repr

/-- pandas `df.empty`: some axis has length 0. -/
def PandasDf.isEmpty (df : PandasDf) : Bool :=
  df.nrows = 0 || df.ncols = 0

/-- Model of `detect_delimiter` (structured_pipeline.py lines 32-77): the external
`csv.Sniffer().sniff` attempt on the 5000-character sample is modelled by
the `sniff` oracle; when it raises, the fallback scoring path runs. -/
def detect_delimiter (sniff : List Char → Option Char) (text : List Char) :
    Char :=
  match sniff (text.take 5000) with
  | some d => d
  | none => detect_delimiter_fallback text

/-- The three `pd.read_csv` attempt numbers of `read_csv_file`
(QUOTE_MINIMAL, then QUOTE_ALL with escape, then QUOTE_NONE). -/
def readAttemptNums : List Nat := [1, 2, 3]

/-- The inner attempt loop of `read_csv_file`: return the first attempt
producing a non-empty DataFrame (`if df is not None and not df.empty`),
otherwise keep trying. -/
def tryAttempts (rd : String → Char → Nat → Option PandasDf) (enc : String)
    (delim : Char) : List Nat → Option PandasDf
  | [] => none
  | i :: rest =>
    match rd enc delim i with
    | some df => if df.isEmpty then tryAttempts rd enc delim rest else some df
    | none => tryAttempts rd enc delim rest

/-- One iteration of the outer encoding loop: decode (`data.decode(enc)`,
whose failure is caught and skips to the next encoding), detect the
delimiter on the decoded text, then run the three read attempts. -/
def encodingAttempt (decode : String → Option (List Char))
    (sniff : List Char → Option Char)
    (rd : String → Char → Nat → Option PandasDf) (enc : String) :
    Option PandasDf :=
  match decode enc with
  | none => none
  | some text => tryAttempts rd enc (detect_delimiter sniff text) readAttemptNums

/-- Model of `read_csv_file`: try each encoding in order, returning the first
non-empty DataFrame; `none` models the final `raise ValueError`. -/
def read_csv_file (decode : String → Option (List Char))
    (sniff : List Char → Option Char)
    (rd : String → Char → Nat → Option PandasDf) :
    List String → Option PandasDf
  | [] => none
  | enc :: rest =>
    match encodingAttempt decode sniff rd enc with
    | some df => some df
    | none => read_csv_file decode sniff rd rest

/-- The reader returns the result of the first encoding that succeeds. -/
lemma read_csv_file_first_success (decode : String → Option (List Char))
    (sniff : List Char → Option Char)
    (rd : String → Char → Nat → Option PandasDf) :
    ∀ (pre : List String) (e : String) (post : List String) (df : PandasDf),
      (∀ e2 ∈ pre, encodingAttempt decode sniff rd e2 = none) →
      encodingAttempt decode sniff rd e = some df →
      read_csv_file decode sniff rd (pre ++ e :: post) = some df
  | [], e, post, df, _, hs => by
      rw [List.nil_append]
      show (match encodingAttempt decode sniff rd e with
        | some df2 => some df2
        | none => read_csv_file decode sniff rd post) = some df
      rw [hs]
  | p :: pre, e, post, df, hpre, hs => by
      rw [List.cons_append]
      show (match encodingAttempt decode sniff rd p with
        | some df2 => some df2
        | none => read_csv_file decode sniff rd (pre ++ e :: post)) = some df
      rw [hpre p (List.mem_cons_self p _)]
      exact read_csv_file_first_success decode sniff rd pre e post df
        (fun e2 he2 => hpre e2 (List.mem_cons_of_mem _ he2)) hs

/-- C5 counterexample: with low confidence and detected encoding `"ascii"`,
the fallback list does not begin with the detected encoding (it is the
fixed list starting with `"utf-8"`). -/
theorem claim_C5_counterexample :
    (detect_encoding ⟨some "ascii", 1 / 2⟩).head? ≠ some "ascii" := by
  unfold detect_encoding
  rw [if_pos (show ((⟨some "ascii", 1 / 2⟩ : ChardetResult)).confidence <
    7 / 10 by norm_num)]
  decide

/-- C5 (amended): on low confidence `detect_encoding` returns exactly
`['utf-8', 'latin-1', 'iso-8859-1', 'cp1252']` — a fixed list that does not
start with the detected encoding — and `read_csv_file` retries the list
elements in order, returning the first encoding's non-empty DataFrame. -/
theorem claim_C5_encoding_fallback_retry :
    (∀ r : ChardetResult, r.confidence < 7 / 10 →
      detect_encoding r = ["utf-8", "latin-1", "iso-8859-1", "cp1252"]) ∧
    (∀ (decode : String → Option (List Char))
      (sniff : List Char → Option Char)
      (rd : String → Char → Nat → Option PandasDf)
      (pre : List String) (e : String) (post : List String) (df : PandasDf),
      (∀ e2 ∈ pre, encodingAttempt decode sniff rd e2 = none) →
      encodingAttempt decode sniff rd e = some df →
      read_csv_file decode sniff rd (pre ++ e :: post) = some df) := by
  constructor
  · intro r h
    unfold detect_encoding
    rw [if_pos h]
  · exact read_csv_file_first_success

/-- Witness for C5 at a concrete chardet result and concrete decode/read
oracles: `utf-8` fails, `latin-1` succeeds. -/
theorem claim_C5_witness :
    ((⟨some "ascii", 1 / 2⟩ : ChardetResult).confidence < 7 / 10 ∧
      detect_encoding ⟨some "ascii", 1 / 2⟩ =
        ["utf-8", "latin-1", "iso-8859-1", "cp1252"]) ∧
    ((∀ e2 ∈ ["utf-8"],
        encodingAttempt
          (fun enc => if enc = "latin-1" then some "a,b".data else none)
          (fun _ => some ',')
          (fun enc _ _ => if enc = "latin-1" then some ⟨2, 2⟩ else none)
          e2 = none) ∧
      read_csv_file
        (fun enc => if enc = "latin-1" then some "a,b".data else none)
        (fun _ => some ',')
        (fun enc _ _ => if enc = "latin-1" then some ⟨2, 2⟩ else none)
        (["utf-8"] ++ "latin-1" :: ["iso-8859-1", "cp1252"]) = some ⟨2, 2⟩) := by
  have hconf : ((⟨some "ascii", 1 / 2⟩ : ChardetResult).confidence < 7 / 10) := by
    norm_num
  have hpre : ∀ e2 ∈ ["utf-8"],
      encodingAttempt
        (fun enc => if enc = "latin-1" then some "a,b".data else none)
        (fun _ => some ',')
        (fun enc _ _ => if enc = "latin-1" then some ⟨2, 2⟩ else none)
        e2 = none := by
    intro e2 he2
    rcases List.mem_singleton.mp he2 with rfl
    rfl
  refine ⟨⟨hconf, (claim_C5_encoding_fallback_retry).1 _ hconf⟩, hpre, ?_⟩
  exact (claim_C5_encoding_fallback_retry).2 _ _ _ ["utf-8"] "latin-1"
    ["iso-8859-1", "cp1252"] ⟨2, 2⟩ hpre rfl

/-! ## Shared adapter-model infrastructure

The modality adapters (`pdf_pipeline`, `docx_pipeline`, `ppt_pipeline`,
`image_pipeline`, `structured_pipeline`) are modelled as functions from an
environment record — carrying the downloaded object's facts and the outcome
of every external call (MinIO puts, psycopg2 statements, the per-format
extractors) — to the ordered list of observable side effects plus the
exception, if any, escaping the invocation.  Python name-resolution errors
(reading a local before assignment, or a missing module binding) are
modelled by `readLocal` over `Option`-valued bindings.
-/

/-- Python exception kinds distinguished by the models. -/
inductive PyErr where
  | nameError
  | s3Error
  | dbError
  | importError
  | parseError
deriving DecidableEq, Repr

/-- Reading a Python name: unbound names raise `NameError` /
`UnboundLocalError`. -/
def readLocal {α : Type} : Option α → Except PyErr α
  | none => .error .nameError
  | some a => .ok a

/-- Arguments of a successful `catalog_updater` call (sizes and counts as
passed; `hasMetadata` records whether the optional `metadata` argument was
supplied). -/
structure CatalogCall where
  object_name : String
  object_size : Option Nat
  file_format : Option String
  row_count : Option Nat
  text_extracted : Bool
  content_hash : Option String
  hasMetadata : Bool
deriving DecidableEq, Repr

/-- Call sites of the catalog updater within one adapter invocation. -/
inductive CallSite where
  | primary
  | table
deriving DecidableEq, Repr

/-- Observable side effects of one adapter invocation, in program order. -/
inductive Event where
  | heavyExtraction
  | putObject (path : String)
  | tablePersisted (table : String) (rows : Nat)
  | unstructuredSaved (hash : String)
  | catalogUpsert (site : CallSite) (c : CatalogCall)
deriving DecidableEq, Repr

/-- The successful primary-object catalog calls recorded in a trace. -/
def primaryCalls (evs : List Event) : List CatalogCall :=
  evs.filterMap fun e =>
    match e with
    | .catalogUpsert .primary c => some c
    | _ => none

/-- Total rows of relational tables actually persisted in a trace. -/
def persistedRowsTotal (evs : List Event) : Nat :=
  (evs.filterMap fun e =>
    match e with
    | .tablePersisted _ n => some n
    | _ => none).sum

/-- Model of `object_name.split('/')[-1].rsplit('.', 1)[0]`: the extension-less base
name used to build derived-artifact paths. -/
def pyBaseRoot (objectName : String) : List Char :=
  let base := (splitOnChar '/' objectName.data).getLastD []
  let parts := splitOnChar '.' base
  if parts.length ≤ 1 then base else List.intercalate ['.'] parts.dropLast

/-- Outcomes of the external calls made while persisting one extracted
table. -/
structure TableEnv where
  emptyAfterNorm : Bool
  putOk : Bool
  importOk : Bool
  loadOk : Bool
  catalogOk : Bool
deriving DecidableEq, Repr

/-- One table handed to `_process_extracted_table`: the file-name part of
its derived key, its row count, the byte size of its CSV rendering, and the
outcomes of its persist steps. -/
structure ExtractedTable where
  name : String
  nrows : Nat
  csvSize : Nat
  env : TableEnv
deriving DecidableEq, Repr

/-- The catalog call issued for one persisted extracted table
(`file_format='csv'`, `content_hash=None`, no metadata). -/
def tableCall (key : String) (tbl : ExtractedTable) : CatalogCall :=
  ⟨key, some tbl.csvSize, some "csv", some tbl.nrows, false, none, false⟩

/-! ## `docx_pipeline` (docx_pipeline.py) -/

/-- Derived key of a DOCX extracted table
(`processed/structured/docx-tables/<root>_table_<idx>.csv`; the file-name
part is carried by the table record). -/
def docxTableKey (name : String) : String :=
  "processed/structured/docx-tables/" ++ name

/-- The body of `_process_extracted_table` (docx_pipeline.py lines 187-251)
with Python exception propagation: upload the CSV, import the sanitizers,
load the table, then update the catalog (the catalog call is not
individually guarded in the DOCX version). -/
def docxTableBody (tbl : ExtractedTable) : List Event × Option PyErr :=
  if !tbl.env.putOk then ([], some .s3Error)
  else if !tbl.env.importOk then
    ([.putObject (docxTableKey tbl.name)], some .importError)
  else if !tbl.env.loadOk then
    ([.putObject (docxTableKey tbl.name)], some .dbError)
  else if !tbl.env.catalogOk then
    ([.putObject (docxTableKey tbl.name),
      .tablePersisted (docxTableKey tbl.name) tbl.nrows], some .dbError)
  else
    ([.putObject (docxTableKey tbl.name),
      .tablePersisted (docxTableKey tbl.name) tbl.nrows,
      .catalogUpsert .table (tableCall (docxTableKey tbl.name) tbl)], none)

/-- Model of `_process_extracted_table` (DOCX): the enclosing
`except Exception as e: logger.exception(...); pg_conn.rollback()` swallows
whatever the body raised, so the call always returns normally. -/
def docxProcessExtractedTable (tbl : ExtractedTable) :
    List Event × Option PyErr :=
  ((docxTableBody tbl).1, none)

/-- The `for idx, df in enumerate(tables)` loop of the DOCX adapter
(lines 375-401): empty tables are skipped, each remaining table is handed
to `_process_extracted_table`, and `total_rows += len(df)` runs
unconditionally afterwards. -/
def docxTableLoop (tables : List ExtractedTable) : List Event × Nat :=
  tables.foldl
    (fun acc t =>
      if t.nrows = 0 then acc
      else (acc.1 ++ (docxProcessExtractedTable t).1, acc.2 + t.nrows))
    ([], 0)

/-- Environment of one DOCX adapter invocation. -/
structure DocxEnv where
  objectName : String
  fileSize : Nat
  fileHash : String
  ext : String
  isDup : Bool
  dupCatalogOk : Bool
  textOk : Bool
  text : String
  tablesOk : Bool
  tables : List ExtractedTable
  textPutOk : Bool
  ensureOk : Bool
  saveDocOk : Bool
  docOk : Bool
  finalCatalogOk : Bool
deriving DecidableEq, Repr

/-- The duplicate-branch stub upsert of the DOCX adapter (lines 306-314). -/
def docxStubCall (env : DocxEnv) : CatalogCall :=
  ⟨env.objectName, some env.fileSize, some env.ext, some 0, false,
    some env.fileHash, false⟩

/-- Path of the extracted-text artifact. -/
def docxTextPath (env : DocxEnv) : String :=
  "processed/unstructured/text-extracted/" ++
    (⟨pyBaseRoot env.objectName⟩ : String) ++ ".txt"

/-- Step 4 of the DOCX adapter (lines 349-370): the MinIO put and
`_ensure_unstructured_table` are unguarded (their failure aborts the
invocation); the upsert inside `_save_unstructured_doc` swallows its own
failure. -/
def docxTextStep (env : DocxEnv) (text : String) : List Event × Option PyErr :=
  if (pyStrip isPySpace text.data).isEmpty then ([], none)
  else if !env.textPutOk then ([], some .s3Error)
  else if !env.ensureOk then ([.putObject (docxTextPath env)], some .dbError)
  else if env.saveDocOk then
    ([.putObject (docxTextPath env), .unstructuredSaved env.fileHash], none)
  else ([.putObject (docxTextPath env)], none)

/-- The primary-object catalog call of the DOCX adapter (lines 420-428). -/
def docxPrimaryCall (env : DocxEnv) (text : String) (totalRows : Nat) :
    CatalogCall :=
  ⟨env.objectName, some env.fileSize, some env.ext, some totalRows,
    !(pyStrip isPySpace text.data).isEmpty, some env.fileHash, true⟩

/-- Model of `docx_pipeline.process_minio_object` (lines 261-437): dedup gate, text
and table extraction (guarded), text persist (partly unguarded), the
fault-tolerant table loop, and the guarded final catalog update. -/
def docxProcess (env : DocxEnv) : List Event × Option PyErr :=
  if env.isDup then
    (if env.dupCatalogOk then [.catalogUpsert .primary (docxStubCall env)]
      else [], none)
  else
    -- step 3 (guarded): extraction runs only for 'docx'; a failure mid-way
    -- leaves the already-extracted text and no tables
    let extracted : List Event :=
      if env.ext = "docx" then [.heavyExtraction] else []
    let text : String := if env.ext = "docx" ∧ env.textOk then env.text else ""
    let tables : List ExtractedTable :=
      if env.ext = "docx" ∧ env.textOk ∧ env.tablesOk then env.tables else []
    -- step 4: text persist; its unguarded failures abort the invocation
    match docxTextStep env text with
    | (evs4, some e) => (extracted ++ evs4, some e)
    | (evs4, none) =>
      -- step 5: table loop (never raises)
      let loop := docxTableLoop tables
      -- step 6 (guarded): Document re-parse for metadata, then the upsert
      let finalEvs : List Event :=
        if env.docOk ∧ env.finalCatalogOk then
          [.catalogUpsert .primary (docxPrimaryCall env text loop.2)]
        else []
      (extracted ++ evs4 ++ loop.1 ++ finalEvs, none)

/-! ## `pdf_pipeline` (pdf_pipeline.py) -/

/-- Derived key of a PDF extracted table
(`processed/structured/pdf-tables/<root>_page<i>_table<j>.csv`). -/
def pdfTableKey (name : String) : String :=
  "processed/structured/pdf-tables/" ++ name

/-- The body of `_process_extracted_table` (pdf_pipeline.py lines 210-310)
with Python exception propagation: normalize (tables empty afterwards are
skipped with a normal return), upload the CSV, then import the sanitizers
(that import failure is caught locally and returns normally), load the
table (failure re-raised to the outer handler), then the per-table catalog
call, whose failure is swallowed by its own handler. -/
def pdfTableBody (tbl : ExtractedTable) : List Event × Option PyErr :=
  if tbl.env.emptyAfterNorm then ([], none)
  else if !tbl.env.putOk then ([], some .s3Error)
  else if !tbl.env.importOk then ([.putObject (pdfTableKey tbl.name)], none)
  else if !tbl.env.loadOk then
    ([.putObject (pdfTableKey tbl.name)], some .dbError)
  else if !tbl.env.catalogOk then
    ([.putObject (pdfTableKey tbl.name),
      .tablePersisted (pdfTableKey tbl.name) tbl.nrows], none)
  else
    ([.putObject (pdfTableKey tbl.name),
      .tablePersisted (pdfTableKey tbl.name) tbl.nrows,
      .catalogUpsert .table (tableCall (pdfTableKey tbl.name) tbl)], none)

/-- Model of `_process_extracted_table` (PDF): the enclosing `except Exception`
(lines 312-316) swallows whatever the body raised; the call always returns
normally. -/
def pdfProcessExtractedTable (tbl : ExtractedTable) :
    List Event × Option PyErr :=
  ((pdfTableBody tbl).1, none)

/-- The PDF metadata dict built at lines 400-409. -/
structure PdfMetadata where
  pageCount : Nat
  tableCount : Nat
deriving DecidableEq, Repr

/-- Environment of one PDF adapter invocation. -/
structure PdfEnv where
  objectName : String
  fileSize : Nat
  fileHash : String
  isDup : Bool
  dupCatalogOk : Bool
  readerOk : Bool
  pageCount : Nat
  pageTexts : List String
  textPutOk : Bool
  saveDocOk : Bool
  plumberOk : Bool
  tables : List ExtractedTable
  finalCatalogOk : Bool
deriving DecidableEq, Repr

/-- The duplicate-branch stub upsert of the PDF adapter (lines 377-385). -/
def pdfStubCall (env : PdfEnv) : CatalogCall :=
  ⟨env.objectName, some env.fileSize, some "pdf", some 0, false,
    some env.fileHash, false⟩

/-- The text-extraction try-block (pdf_pipeline.py lines 395-420): construct
the reader, then build `pdf_metadata` — whose `'table_count': table_count`
entry reads the local `table_count`, assigned only later at line 462 — and
only afterwards run the page loop accumulating `full_text`. -/
def pdfTextBlock (env : PdfEnv) (table_count : Option Nat) :
    Except PyErr (PdfMetadata × String) := do
  if !env.readerOk then throw .parseError
  let pc := env.pageCount
  let tc ← readLocal table_count
  let meta : PdfMetadata := ⟨pc, tc⟩
  let text := String.join env.pageTexts
  pure (meta, text)

/-- Path of the extracted-text artifact. -/
def pdfTextPath (env : PdfEnv) : String :=
  "processed/unstructured/text-extracted/" ++
    (⟨pyBaseRoot env.objectName⟩ : String) ++ ".txt"

/-- Step 4/5 of the PDF adapter (lines 427-458): both the MinIO put and the
unstructured-document save are individually guarded; neither failure
escapes. -/
def pdfTextStep (env : PdfEnv) (text : String) : List Event :=
  if (pyStrip isPySpace text.data).isEmpty then []
  else
    (if env.textPutOk then [.putObject (pdfTextPath env)] else []) ++
    (if env.saveDocOk then [.unstructuredSaved env.fileHash] else [])

/-- The primary-object catalog call of the PDF adapter (lines 533-541),
reached only when `pdf_metadata` is bound. -/
def pdfPrimaryCall (env : PdfEnv) (text : String) (tableCount : Nat) :
    CatalogCall :=
  ⟨env.objectName, some env.fileSize, some "pdf", some tableCount,
    !(pyStrip isPySpace text.data).isEmpty, some env.fileHash, true⟩

/-- Model of `pdf_pipeline.process_minio_object` (lines 319-551): dedup gate, the
text/metadata try-block, text persist, table extraction with the
fault-tolerant per-table loop (`table_count` assigned at line 462, counting
every table handed to the loop), and the guarded final catalog update,
which reads the still-unbound `pdf_metadata` local. -/
def pdfProcess (env : PdfEnv) : List Event × Option PyErr :=
  if env.isDup then
    (if env.dupCatalogOk then [.catalogUpsert .primary (pdfStubCall env)]
      else [], none)
  else
    -- locals before the try-block: full_text = "", table_count unassigned
    let afterText : String × Option PdfMetadata :=
      match pdfTextBlock env none with
      | .ok (m, t) => (t, some m)
      | .error _ => ("", none)        -- except at line 422: logged, continue
    let full_text := afterText.1
    let pdf_metadata := afterText.2
    let textEvs := pdfTextStep env full_text
    -- step 6: table_count = 0; the pdfplumber loop processes every table,
    -- incrementing table_count after each `_process_extracted_table` call
    let tableEvs : List Event :=
      if env.plumberOk then
        env.tables.flatMap fun t => (pdfProcessExtractedTable t).1
      else []
    let table_count : Nat := if env.plumberOk then env.tables.length else 0
    -- step 7 (guarded): `metadata=pdf_metadata` reads an unbound local
    let finalEvs : List Event :=
      match readLocal pdf_metadata with
      | .error _ => []                -- except at line 543: logged, continue
      | .ok _ =>
        if env.finalCatalogOk then
          [.catalogUpsert .primary (pdfPrimaryCall env full_text table_count)]
        else []
    (.heavyExtraction :: textEvs ++ tableEvs ++ finalEvs, none)

/-! ## `ppt_pipeline` (ppt_pipeline.py) -/

/-- The names bound at module level in ppt_pipeline.py: the imports of
lines 3-14, the module logger, and the function definitions.  `json` is not
among them. -/
def pptModuleNames : List String :=
  ["io", "logging", "hashlib", "List", "Dict", "Any", "Optional", "ZipFile",
   "Minio", "Presentation", "MSO_SHAPE_TYPE", "pd", "psycopg2", "logger",
   "calculate_file_hash", "is_duplicate", "_ensure_unstructured_table",
   "_save_unstructured_doc", "extract_text_from_slide",
   "extract_table_from_shape", "extract_images_from_pptx",
   "_process_extracted_table", "process_minio_object"]

/-- Resolving a global name inside ppt_pipeline: missing bindings raise
`NameError`. -/
def pptLookupGlobal (n : String) : Except PyErr Unit :=
  if pptModuleNames.contains n then .ok () else .error .nameError

/-- Derived key of a PPT extracted table
(`processed/structured/ppt-tables/<root>_slide<i>_table<j>.csv`). -/
def pptTableKey (name : String) : String :=
  "processed/structured/ppt-tables/" ++ name

/-- The body of `_process_extracted_table` (ppt_pipeline.py lines 281-377)
with Python exception propagation: import the sanitizers, normalize (tables
empty afterwards return normally), upload the CSV, load the table (failure
re-raised), then the per-table catalog call, guarded by its own handler. -/
def pptTableBody (tbl : ExtractedTable) : List Event × Option PyErr :=
  if !tbl.env.importOk then ([], some .importError)
  else if tbl.env.emptyAfterNorm then ([], none)
  else if !tbl.env.putOk then ([], some .s3Error)
  else if !tbl.env.loadOk then
    ([.putObject (pptTableKey tbl.name)], some .dbError)
  else if !tbl.env.catalogOk then
    ([.putObject (pptTableKey tbl.name),
      .tablePersisted (pptTableKey tbl.name) tbl.nrows], none)
  else
    ([.putObject (pptTableKey tbl.name),
      .tablePersisted (pptTableKey tbl.name) tbl.nrows,
      .catalogUpsert .table (tableCall (pptTableKey tbl.name) tbl)], none)

/-- Model of `_process_extracted_table` (PPT): the enclosing `except Exception`
(lines 379-382) swallows whatever the body raised. -/
def pptProcessExtractedTable (tbl : ExtractedTable) :
    List Event × Option PyErr :=
  ((pptTableBody tbl).1, none)

/-- Environment of one PPTX adapter invocation. -/
structure PptEnv where
  objectName : String
  fileSize : Nat
  fileHash : String
  isDup : Bool
  dupCatalogOk : Bool
  prsOk : Bool
  slideTexts : List String
  tables : List ExtractedTable
  textPutOk : Bool
  saveDocOk : Bool
  jsonPutOk : Bool
  imageNames : List String
  imagePutOk : Bool
  finalPrsOk : Bool
  finalCatalogOk : Bool
deriving DecidableEq, Repr

/-- The duplicate-branch stub upsert of the PPT adapter (lines 443-450). -/
def pptStubCall (env : PptEnv) : CatalogCall :=
  ⟨env.objectName, some env.fileSize, some "pptx", some 0, false,
    some env.fileHash, false⟩

/-- Path of the extracted-text artifact. -/
def pptTextPath (env : PptEnv) : String :=
  "processed/unstructured/text-extracted/" ++
    (⟨pyBaseRoot env.objectName⟩ : String) ++ ".txt"

/-- Path of the structured-JSON derived artifact
(`processed/unstructured/ppt-structured/<root>.json`, line 558). -/
def pptJsonPath (env : PptEnv) : String :=
  "processed/unstructured/ppt-structured/" ++
    (⟨pyBaseRoot env.objectName⟩ : String) ++ ".json"

/-- Path of one extracted slide image
(`processed/unstructured/ppt-images/<root>/<name>`, line 258). -/
def pptImagePath (env : PptEnv) (name : String) : String :=
  "processed/unstructured/ppt-images/" ++
    (⟨pyBaseRoot env.objectName⟩ : String) ++ "/" ++ name

/-- Step 4 of the PPT adapter (lines 521-552): text put and unstructured
save, each guarded. -/
def pptTextStep (env : PptEnv) (text : String) : List Event :=
  if (pyStrip isPySpace text.data).isEmpty then []
  else
    (if env.textPutOk then [.putObject (pptTextPath env)] else []) ++
    (if env.saveDocOk then [.unstructuredSaved env.fileHash] else [])

/-- Step 5 of the PPT adapter (lines 554-570): serialize the slide data with
`json.dumps` — but `json` is not a module binding of ppt_pipeline — and
upload the result; the enclosing handler logs the failure. -/
def pptJsonStep (env : PptEnv) : List Event × Option PyErr :=
  match pptLookupGlobal "json" with
  | .error e => ([], some e)
  | .ok _ => (if env.jsonPutOk then [.putObject (pptJsonPath env)] else [],
      none)

/-- The primary-object catalog call of the PPT adapter (lines 612-620). -/
def pptPrimaryCall (env : PptEnv) (text : String) (tableCount : Nat) :
    CatalogCall :=
  ⟨env.objectName, some env.fileSize, some "pptx", some tableCount,
    !(pyStrip isPySpace text.data).isEmpty, some env.fileHash, true⟩

/-- Model of `ppt_pipeline.process_minio_object` (lines 385-629): dedup gate, slide
extraction with the fault-tolerant per-table loop, text persist, the
structured-JSON step (whose `json.dumps` always raises `NameError`), image
extraction, and the guarded final catalog update. -/
def pptProcess (env : PptEnv) : List Event × Option PyErr :=
  if env.isDup then
    (if env.dupCatalogOk then [.catalogUpsert .primary (pptStubCall env)]
      else [], none)
  else if !env.prsOk then
    -- lines 517-519: `except ...: logger.exception(...); return`
    ([.heavyExtraction], none)
  else
    let tableEvs : List Event :=
      env.tables.flatMap fun t => (pptProcessExtractedTable t).1
    let table_count := env.tables.length
    let full_text := String.intercalate "\n\n" env.slideTexts
    let textEvs := pptTextStep env full_text
    let jsonEvs := (pptJsonStep env).1    -- its error is logged at line 570
    let imageEvs : List Event :=
      if env.imagePutOk then
        env.imageNames.map fun n => .putObject (pptImagePath env n)
      else []
    let finalEvs : List Event :=
      if env.finalPrsOk ∧ env.finalCatalogOk then
        [.catalogUpsert .primary (pptPrimaryCall env full_text table_count)]
      else []
    (.heavyExtraction :: tableEvs ++ textEvs ++ jsonEvs ++ imageEvs ++
      finalEvs, none)

/-! ## `image_pipeline` (image_pipeline.py) -/

/-- Environment of one image adapter invocation. -/
structure ImageEnv where
  objectName : String
  fileSize : Nat
  fileHash : String
  isDup : Bool
  dupCatalogOk : Bool
  imageOk : Bool
  ocrText : Option String
  ocrPutOk : Bool
  dbOk : Bool
  exifOk : Bool
  finalCatalogOk : Bool
deriving DecidableEq, Repr

/-- The duplicate-branch stub upsert of the image adapter (lines 102-110). -/
def imageStubCall (env : ImageEnv) : CatalogCall :=
  ⟨env.objectName, some env.fileSize, some "image", some 0, false,
    some env.fileHash, false⟩

/-- Path of the OCR-text artifact. -/
def imageTextPath (env : ImageEnv) : String :=
  "processed/unstructured/text-extracted/" ++
    (⟨pyBaseRoot env.objectName⟩ : String) ++ ".txt"

/-- The OCR text surviving the guarded OCR block (lines 124-149): if the put
of a non-blank OCR text fails, the handler resets `ocr_text = None`. -/
def imageEffectiveOcr (env : ImageEnv) : Option String :=
  match env.ocrText with
  | none => none
  | some t =>
    if !(pyStrip isPySpace t.data).isEmpty ∧ !env.ocrPutOk then none
    else some t

/-- The primary-object catalog call of the image adapter (lines 189-197):
`row_count=None`. -/
def imagePrimaryCall (env : ImageEnv) : CatalogCall :=
  ⟨env.objectName, some env.fileSize, some "image", none,
    (match imageEffectiveOcr env with
      | some t => !(pyStrip isPySpace t.data).isEmpty
      | none => false),
    some env.fileHash, true⟩

/-- Model of `image_pipeline.process_minio_object` (lines 68-213): dedup gate, image
open (failure re-raised by the top-level handler), guarded OCR, the
unstructured-images upsert, EXIF read and final catalog update — the last
three unguarded inside the top-level try, whose handler re-raises. -/
def imageProcess (env : ImageEnv) : List Event × Option PyErr :=
  if env.isDup then
    (if env.dupCatalogOk then [.catalogUpsert .primary (imageStubCall env)]
      else [], none)
  else if !env.imageOk then ([.heavyExtraction], some .parseError)
  else
    let ocrEvs : List Event :=
      match env.ocrText with
      | none => []
      | some t =>
        if !(pyStrip isPySpace t.data).isEmpty ∧ env.ocrPutOk then
          [.putObject (imageTextPath env)]
        else []
    if !env.dbOk then (.heavyExtraction :: ocrEvs, some .dbError)
    else if !env.exifOk then
      (.heavyExtraction :: ocrEvs ++ [.unstructuredSaved env.fileHash],
        some .parseError)
    else if !env.finalCatalogOk then
      (.heavyExtraction :: ocrEvs ++ [.unstructuredSaved env.fileHash],
        some .dbError)
    else
      (.heavyExtraction :: ocrEvs ++ [.unstructuredSaved env.fileHash,
        .catalogUpsert .primary (imagePrimaryCall env)], none)

/-! ## `structured_pipeline.process_minio_object` (lines 490-577) -/

/-- Model of `s.replace(pat, rep)` on character lists (used by the Parquet path
derivation); `pat` is the fixed non-empty literal `"raw/"`. -/
def replaceSub (pat rep : List Char) : List Char → List Char
  | [] => []
  | c :: t =>
    if pat ≠ [] ∧ pat.isPrefixOf (c :: t) then
      rep ++ replaceSub pat rep (t.drop (pat.length - 1))
    else c :: replaceSub pat rep t
termination_by l => l.length
decreasing_by
  · simp only [List.length_cons, List.length_drop]
    omega
  · simp

/-- Model of `object_name.rsplit('.', 1)[0]`: drop the final extension segment. -/
def dropLastExt (l : List Char) : List Char :=
  let parts := splitOnChar '.' l
  if parts.length ≤ 1 then l else List.intercalate ['.'] parts.dropLast

/-- The Parquet artifact path (line 475):
`object_name.replace('raw/', 'processed/structured/').rsplit('.', 1)[0] +
'.parquet'`. -/
def structParquetPath (objectName : String) : String :=
  ⟨dropLastExt (replaceSub "raw/".data "processed/structured/".data
    objectName.data) ++ ".parquet".data⟩

/-- Environment of one structured adapter invocation.  `catalogHasHash`
records whether the object's content hash is already present in the catalog
reachable through `pg_conn`; the structured pipeline computes no hash and
never queries the catalog, so this field is (faithfully) never read. -/
structure StructEnv where
  objectName : String
  dataSize : Nat
  catalogHasHash : Bool
  fileType : String
  readOk : Bool
  nrows : Nat
  ncols : Nat
  loadOk : Bool
  parquetPutOk : Bool
  finalCatalogOk : Bool
deriving DecidableEq, Repr

/-- The primary catalog call of the structured adapter (lines 555-563):
`text_extracted=False`, `content_hash=None`. -/
def structPrimaryCall (env : StructEnv) : CatalogCall :=
  ⟨env.objectName, some env.dataSize, some env.fileType, some env.nrows,
    false, none, true⟩

/-- Model of `structured_pipeline.process_minio_object`: read (always heavy — there
is no dedup gate), clean, load to PostgreSQL (failure re-raised by the
handler at lines 567-571), save Parquet (guarded), then the catalog update
(failure re-raised). -/
def structuredProcess (env : StructEnv) : List Event × Option PyErr :=
  if !env.readOk then ([.heavyExtraction], some .parseError)
  else if !env.loadOk then ([.heavyExtraction], some .dbError)
  else
    let parquetEvs : List Event :=
      if env.fileType ≠ "parquet" ∧ env.parquetPutOk then
        [.putObject (structParquetPath env.objectName)]
      else []
    if !env.finalCatalogOk then
      (.heavyExtraction :: parquetEvs, some .dbError)
    else
      (.heavyExtraction :: parquetEvs ++
        [.catalogUpsert .primary (structPrimaryCall env)], none)

/-! ## Trace lemmas and the adapter claims -/

lemma primaryCalls_append (l1 l2 : List Event) :
    primaryCalls (l1 ++ l2) = primaryCalls l1 ++ primaryCalls l2 :=
  List.filterMap_append l1 l2 _

lemma primaryCalls_flatMap_nil {α : Type} (g : α → List Event)
    (hg : ∀ t, primaryCalls (g t) = []) :
    ∀ ts : List α, primaryCalls (ts.flatMap g) = []
  | [] => rfl
  | t :: ts => by
      rw [List.flatMap_cons, primaryCalls_append, hg t, List.nil_append]
      exact primaryCalls_flatMap_nil g hg ts

lemma primaryCalls_docxTableBody (tbl : ExtractedTable) :
    primaryCalls (docxTableBody tbl).1 = [] := by
  unfold docxTableBody primaryCalls
  split_ifs <;> rfl

lemma primaryCalls_pdfTableBody (tbl : ExtractedTable) :
    primaryCalls (pdfTableBody tbl).1 = [] := by
  unfold pdfTableBody primaryCalls
  split_ifs <;> rfl

lemma primaryCalls_pptTableBody (tbl : ExtractedTable) :
    primaryCalls (pptTableBody tbl).1 = [] := by
  unfold pptTableBody primaryCalls
  split_ifs <;> rfl

/-- The DOCX table loop unfolded: it visits every non-empty table in order,
whatever each table's persist outcome was, and accumulates every table's
row count. -/
lemma docxTableLoop_go (tables : List ExtractedTable) :
    ∀ acc : List Event × Nat,
      tables.foldl
        (fun acc t =>
          if t.nrows = 0 then acc
          else (acc.1 ++ (docxProcessExtractedTable t).1, acc.2 + t.nrows))
        acc =
      (acc.1 ++ (tables.filter fun t => t.nrows ≠ 0).flatMap
          (fun t => (docxProcessExtractedTable t).1),
        acc.2 + ((tables.filter fun t => t.nrows ≠ 0).map (·.nrows)).sum) := by
  induction tables with
  | nil => intro acc; simp
  | cons t ts ih =>
    intro acc
    rw [List.foldl_cons]
    by_cases h0 : t.nrows = 0
    · rw [if_pos h0, ih acc]
      have hf : (t :: ts).filter (fun t => decide (t.nrows ≠ 0)) =
          ts.filter (fun t => decide (t.nrows ≠ 0)) :=
        List.filter_cons_of_neg (by simp [h0])
      rw [hf]
    · rw [if_neg h0, ih]
      have hf : (t :: ts).filter (fun t => decide (t.nrows ≠ 0)) =
          t :: ts.filter (fun t => decide (t.nrows ≠ 0)) :=
        List.filter_cons_of_pos (by simp [h0])
      rw [hf, List.flatMap_cons, List.map_cons, List.sum_cons]
      rw [Prod.mk.injEq]
      exact ⟨by simp [List.append_assoc], by omega⟩

lemma docxTableLoop_eq (tables : List ExtractedTable) :
    docxTableLoop tables =
      ((tables.filter fun t => t.nrows ≠ 0).flatMap
          (fun t => (docxProcessExtractedTable t).1),
        ((tables.filter fun t => t.nrows ≠ 0).map (·.nrows)).sum) := by
  unfold docxTableLoop
  rw [docxTableLoop_go tables ([], 0)]
  simp

/-- C7: every exception raised while persisting one extracted table is
caught by `_process_extracted_table` (PDF, DOCX and PPT versions), which
returns normally, and consequently the DOCX adapter's loop visits every
non-empty extracted table regardless of earlier tables' outcomes. -/
theorem claim_C7_process_extracted_table_total :
    (∀ tbl : ExtractedTable, (pdfProcessExtractedTable tbl).2 = none) ∧
    (∀ tbl : ExtractedTable, (docxProcessExtractedTable tbl).2 = none) ∧
    (∀ tbl : ExtractedTable, (pptProcessExtractedTable tbl).2 = none) ∧
    (∀ tables : List ExtractedTable,
      (docxTableLoop tables).1 =
        (tables.filter fun t => t.nrows ≠ 0).flatMap
          (fun t => (docxProcessExtractedTable t).1)) :=
  ⟨fun _ => rfl, fun _ => rfl, fun _ => rfl,
    fun tables => by rw [docxTableLoop_eq]⟩

lemma primaryCalls_docxPET (tbl : ExtractedTable) :
    primaryCalls (docxProcessExtractedTable tbl).1 = [] :=
  primaryCalls_docxTableBody tbl

lemma primaryCalls_pdfPET (tbl : ExtractedTable) :
    primaryCalls (pdfProcessExtractedTable tbl).1 = [] :=
  primaryCalls_pdfTableBody tbl

lemma primaryCalls_pptPET (tbl : ExtractedTable) :
    primaryCalls (pptProcessExtractedTable tbl).1 = [] :=
  primaryCalls_pptTableBody tbl

lemma docxTextStep_err_none {env : DocxEnv} {text : String}
    (h5 : env.textPutOk = true) (h6 : env.ensureOk = true) :
    (docxTextStep env text).2 = none := by
  unfold docxTextStep
  split_ifs with ha hb hc hd
  · rfl
  · simp [h5] at hb
  · simp [h6] at hc
  · rfl
  · rfl

/-- C3 (amended, DOCX): on the happy path the primary-object catalog upsert
is the last event of the invocation, and the `row_count` it records is the
total row count of all non-empty extracted tables — including tables whose
normalize/persist step failed, since per-table failures are swallowed and
`total_rows` accumulates unconditionally. -/
theorem claim_C3_amended_rowcount_counts_failed_tables (env : DocxEnv)
    (h1 : env.isDup = false) (h2 : env.ext = "docx") (h3 : env.textOk = true)
    (h4 : env.tablesOk = true) (h5 : env.textPutOk = true)
    (h6 : env.ensureOk = true) (h7 : env.docOk = true)
    (h8 : env.finalCatalogOk = true) :
    (docxProcess env).2 = none ∧
    (docxProcess env).1.getLast? = some (.catalogUpsert .primary
      (docxPrimaryCall env env.text
        (((env.tables.filter fun t => t.nrows ≠ 0).map (·.nrows)).sum))) ∧
    primaryCalls (docxProcess env).1 =
      [docxPrimaryCall env env.text
        (((env.tables.filter fun t => t.nrows ≠ 0).map (·.nrows)).sum)] := by
  have herr := @docxTextStep_err_none env env.text h5 h6
  unfold docxProcess
  rw [h1]
  simp only [Bool.false_eq_true, if_false]
  have hcond : (env.ext = "docx" ∧ env.textOk = true) := ⟨h2, h3⟩
  have hcond3 : (env.ext = "docx" ∧ env.textOk = true ∧ env.tablesOk = true) :=
    ⟨h2, h3, h4⟩
  rw [if_pos h2, if_pos hcond, if_pos hcond3]
  rcases hts : docxTextStep env env.text with ⟨evs4, err⟩
  rw [hts] at herr
  simp only at herr
  subst herr
  rw [docxTableLoop_eq]
  dsimp only
  rw [if_pos ⟨h7, h8⟩]
  have hevs4 : primaryCalls evs4 = [] := by
    have hevs4' : evs4 = (docxTextStep env env.text).1 := by rw [hts]
    rw [hevs4']
    unfold docxTextStep primaryCalls
    split_ifs <;> rfl
  refine ⟨rfl, ?_, ?_⟩
  · rw [List.getLast?_concat]
  · rw [primaryCalls_append, primaryCalls_append, primaryCalls_append]
    rw [primaryCalls_flatMap_nil _ primaryCalls_docxPET, hevs4]
    rfl

/-- C3 counterexample: a DOCX invocation whose single extracted table (2
rows) fails its persist step; the table is not persisted, yet the primary
upsert records `row_count = 2`, not the 0 rows that actually persisted. -/
theorem claim_C3_counterexample :
    (primaryCalls (docxProcess
      ⟨"raw/doc1.docx", 100, "h1", "docx", false, true, true, "", true,
        [⟨"doc1_table_1.csv", 2, 30, ⟨false, true, true, false, true⟩⟩],
        true, true, true, true, true⟩).1).map (·.row_count) = [some 2] ∧
    persistedRowsTotal (docxProcess
      ⟨"raw/doc1.docx", 100, "h1", "docx", false, true, true, "", true,
        [⟨"doc1_table_1.csv", 2, 30, ⟨false, true, true, false, true⟩⟩],
        true, true, true, true, true⟩).1 = 0 ∧
    (primaryCalls (docxProcess
      ⟨"raw/doc1.docx", 100, "h1", "docx", false, true, true, "", true,
        [⟨"doc1_table_1.csv", 2, 30, ⟨false, true, true, false, true⟩⟩],
        true, true, true, true, true⟩).1).map (·.row_count) ≠
      [some (persistedRowsTotal (docxProcess
        ⟨"raw/doc1.docx", 100, "h1", "docx", false, true, true, "", true,
          [⟨"doc1_table_1.csv", 2, 30, ⟨false, true, true, false, true⟩⟩],
          true, true, true, true, true⟩).1)] := by
  refine ⟨?_, ?_, ?_⟩ <;> decide

/-- Witness for the amended C3 at a concrete DOCX environment. -/
theorem claim_C3_witness :
    ((⟨"raw/doc1.docx", 100, "h1", "docx", false, true, true, "", true,
        [⟨"doc1_table_1.csv", 2, 30, ⟨false, true, true, false, true⟩⟩],
        true, true, true, true, true⟩ : DocxEnv).isDup = false ∧
      (⟨"raw/doc1.docx", 100, "h1", "docx", false, true, true, "", true,
        [⟨"doc1_table_1.csv", 2, 30, ⟨false, true, true, false, true⟩⟩],
        true, true, true, true, true⟩ : DocxEnv).ext = "docx") ∧
    ((docxProcess
      ⟨"raw/doc1.docx", 100, "h1", "docx", false, true, true, "", true,
        [⟨"doc1_table_1.csv", 2, 30, ⟨false, true, true, false, true⟩⟩],
        true, true, true, true, true⟩).2 = none ∧
    (docxProcess
      ⟨"raw/doc1.docx", 100, "h1", "docx", false, true, true, "", true,
        [⟨"doc1_table_1.csv", 2, 30, ⟨false, true, true, false, true⟩⟩],
        true, true, true, true, true⟩).1.getLast? =
      some (.catalogUpsert .primary
        (docxPrimaryCall
          ⟨"raw/doc1.docx", 100, "h1", "docx", false, true, true, "", true,
            [⟨"doc1_table_1.csv", 2, 30, ⟨false, true, true, false, true⟩⟩],
            true, true, true, true, true⟩ ""
          ((((⟨"raw/doc1.docx", 100, "h1", "docx", false, true, true, "",
              true,
              [⟨"doc1_table_1.csv", 2, 30, ⟨false, true, true, false, true⟩⟩],
              true, true, true, true, true⟩ : DocxEnv).tables.filter
                fun t => t.nrows ≠ 0).map (·.nrows)).sum))) ∧
    primaryCalls (docxProcess
      ⟨"raw/doc1.docx", 100, "h1", "docx", false, true, true, "", true,
        [⟨"doc1_table_1.csv", 2, 30, ⟨false, true, true, false, true⟩⟩],
        true, true, true, true, true⟩).1 =
      [docxPrimaryCall
        ⟨"raw/doc1.docx", 100, "h1", "docx", false, true, true, "", true,
          [⟨"doc1_table_1.csv", 2, 30, ⟨false, true, true, false, true⟩⟩],
          true, true, true, true, true⟩ ""
        ((((⟨"raw/doc1.docx", 100, "h1", "docx", false, true, true, "", true,
            [⟨"doc1_table_1.csv", 2, 30, ⟨false, true, true, false, true⟩⟩],
            true, true, true, true, true⟩ : DocxEnv).tables.filter
              fun t => t.nrows ≠ 0).map (·.nrows)).sum)]) :=
  ⟨⟨rfl, rfl⟩,
    claim_C3_amended_rowcount_counts_failed_tables
      ⟨"raw/doc1.docx", 100, "h1", "docx", false, true, true, "", true,
        [⟨"doc1_table_1.csv", 2, 30, ⟨false, true, true, false, true⟩⟩],
        true, true, true, true, true⟩
      rfl rfl rfl rfl rfl rfl rfl rfl⟩

/-- Lemma: `pdfTextBlock` starting from an unassigned `table_count` always raises:
`NameError` (UnboundLocalError) when the reader succeeds, the reader's own
error otherwise. -/
lemma pdfTextBlock_always_error (env : PdfEnv) :
    pdfTextBlock env none =
      .error (if env.readerOk then PyErr.nameError else PyErr.parseError) := by
  unfold pdfTextBlock
  cases hr : env.readerOk
  · rfl
  · rfl

/-- C9: for every non-duplicate PDF invocation, building `pdf_metadata`
raises on the not-yet-assigned local `table_count` (when the reader
succeeds), the final catalog update then raises on the unbound
`pdf_metadata` and is caught, and consequently no primary CatalogEntry is
ever recorded — while the invocation itself still returns normally. -/
theorem claim_C9_pdf_unbound_table_count (env : PdfEnv)
    (h : env.isDup = false) :
    (env.readerOk = true → pdfTextBlock env none = .error .nameError) ∧
    primaryCalls (pdfProcess env).1 = [] ∧
    (pdfProcess env).2 = none := by
  refine ⟨?_, ?_, ?_⟩
  · intro hr
    rw [pdfTextBlock_always_error, if_pos (by rw [hr])]
  · unfold pdfProcess
    rw [h]
    simp only [Bool.false_eq_true, if_false]
    rw [pdfTextBlock_always_error]
    dsimp only
    have htb : primaryCalls
        (if env.plumberOk = true then
          env.tables.flatMap fun t => (pdfProcessExtractedTable t).1
        else []) = [] := by
      split
      · exact primaryCalls_flatMap_nil _ primaryCalls_pdfPET env.tables
      · rfl
    show primaryCalls (([] : List Event) ++
      (if env.plumberOk = true then
        env.tables.flatMap fun t => (pdfProcessExtractedTable t).1
      else []) ++ []) = []
    rw [primaryCalls_append, primaryCalls_append, htb]
    rfl
  · unfold pdfProcess
    rw [h]
    simp only [Bool.false_eq_true, if_false]

/-- Witness for C9 at a concrete non-duplicate PDF environment whose reader
succeeds and whose one table persists fully. -/
theorem claim_C9_witness :
    ((⟨"raw/r.pdf", 10, "h", false, true, true, 1, ["page text"], true, true,
      true, [⟨"r_page1_table1.csv", 1, 5, ⟨false, true, true, true, true⟩⟩],
      true⟩ : PdfEnv)).isDup = false ∧
    (((⟨"raw/r.pdf", 10, "h", false, true, true, 1, ["page text"], true, true,
        true, [⟨"r_page1_table1.csv", 1, 5, ⟨false, true, true, true, true⟩⟩],
        true⟩ : PdfEnv)).readerOk = true →
      pdfTextBlock
        ⟨"raw/r.pdf", 10, "h", false, true, true, 1, ["page text"], true,
          true, true,
          [⟨"r_page1_table1.csv", 1, 5, ⟨false, true, true, true, true⟩⟩],
          true⟩ none = .error .nameError) ∧
    primaryCalls (pdfProcess
      ⟨"raw/r.pdf", 10, "h", false, true, true, 1, ["page text"], true, true,
        true, [⟨"r_page1_table1.csv", 1, 5, ⟨false, true, true, true, true⟩⟩],
        true⟩).1 = [] ∧
    (pdfProcess
      ⟨"raw/r.pdf", 10, "h", false, true, true, 1, ["page text"], true, true,
        true, [⟨"r_page1_table1.csv", 1, 5, ⟨false, true, true, true, true⟩⟩],
        true⟩).2 = none :=
  ⟨rfl,
    (claim_C9_pdf_unbound_table_count _ rfl).1,
    (claim_C9_pdf_unbound_table_count
      ⟨"raw/r.pdf", 10, "h", false, true, true, 1, ["page text"], true, true,
        true, [⟨"r_page1_table1.csv", 1, 5, ⟨false, true, true, true, true⟩⟩],
        true⟩ rfl).2.1,
    (claim_C9_pdf_unbound_table_count
      ⟨"raw/r.pdf", 10, "h", false, true, true, 1, ["page text"], true, true,
        true, [⟨"r_page1_table1.csv", 1, 5, ⟨false, true, true, true, true⟩⟩],
        true⟩ rfl).2.2⟩

/-- C2 (amended): the pdf, docx, pptx and image adapters share the
content-hash gate — a known hash skips heavy processing and still upserts a
stub CatalogEntry for the current path (`row_count=0`,
`text_extracted=False`, content hash preserved) when the catalog write
succeeds; the structured adapter has no gate at all — it always performs
full processing and upserts with `content_hash=None` and `row_count` equal
to the rows read, whatever the catalog contains. -/
theorem claim_C2_amended_dedup_gate :
    (∀ env : PdfEnv, env.isDup = true → env.dupCatalogOk = true →
      pdfProcess env = ([.catalogUpsert .primary (pdfStubCall env)], none)) ∧
    (∀ env : DocxEnv, env.isDup = true → env.dupCatalogOk = true →
      docxProcess env = ([.catalogUpsert .primary (docxStubCall env)], none)) ∧
    (∀ env : PptEnv, env.isDup = true → env.dupCatalogOk = true →
      pptProcess env = ([.catalogUpsert .primary (pptStubCall env)], none)) ∧
    (∀ env : ImageEnv, env.isDup = true → env.dupCatalogOk = true →
      imageProcess env =
        ([.catalogUpsert .primary (imageStubCall env)], none)) ∧
    (∀ env : StructEnv, env.readOk = true → env.loadOk = true →
      env.finalCatalogOk = true →
      Event.heavyExtraction ∈ (structuredProcess env).1 ∧
      primaryCalls (structuredProcess env).1 = [structPrimaryCall env]) := by
  refine ⟨?_, ?_, ?_, ?_, ?_⟩
  · intro env h1 h2
    simp [pdfProcess, h1, h2]
  · intro env h1 h2
    simp [docxProcess, h1, h2]
  · intro env h1 h2
    simp [pptProcess, h1, h2]
  · intro env h1 h2
    simp [imageProcess, h1, h2]
  · intro env h1 h2 h3
    unfold structuredProcess
    simp only [h1, h2, h3, Bool.not_true, Bool.false_eq_true, if_false]
    constructor
    · exact List.mem_cons_self _ _
    · split
      · rfl
      · rfl

/-- C2 counterexample: a structured-pipeline invocation whose content hash
is already present in the catalog still performs heavy processing and
upserts `content_hash=None` with the full `row_count` — not the claimed
skip with `row_count=0` and a preserved hash. -/
theorem claim_C2_counterexample :
    (⟨"raw/d.csv", 50, true, "csv", true, 3, 2, true, false, true⟩ :
      StructEnv).catalogHasHash = true ∧
    Event.heavyExtraction ∈ (structuredProcess
      ⟨"raw/d.csv", 50, true, "csv", true, 3, 2, true, false, true⟩).1 ∧
    (primaryCalls (structuredProcess
      ⟨"raw/d.csv", 50, true, "csv", true, 3, 2, true, false,
        true⟩).1).map (·.content_hash) = [none] ∧
    (primaryCalls (structuredProcess
      ⟨"raw/d.csv", 50, true, "csv", true, 3, 2, true, false,
        true⟩).1).map (·.row_count) = [some 3] := by
  refine ⟨?_, ?_, ?_, ?_⟩ <;> decide

/-- Witness for the amended C2: a duplicate PDF input and a structured
input. -/
theorem claim_C2_witness :
    ((⟨"raw/a.pdf", 5, "h2", true, true, true, 0, [], true, true, true, [],
        true⟩ : PdfEnv).isDup = true ∧
      (⟨"raw/a.pdf", 5, "h2", true, true, true, 0, [], true, true, true, [],
        true⟩ : PdfEnv).dupCatalogOk = true ∧
      (⟨"raw/d.csv", 50, true, "csv", true, 3, 2, true, false, true⟩ :
        StructEnv).readOk = true) ∧
    pdfProcess
      ⟨"raw/a.pdf", 5, "h2", true, true, true, 0, [], true, true, true, [],
        true⟩ =
      ([.catalogUpsert .primary (pdfStubCall
        ⟨"raw/a.pdf", 5, "h2", true, true, true, 0, [], true, true, true, [],
          true⟩)], none) ∧
    (Event.heavyExtraction ∈ (structuredProcess
      ⟨"raw/d.csv", 50, true, "csv", true, 3, 2, true, false, true⟩).1 ∧
      primaryCalls (structuredProcess
        ⟨"raw/d.csv", 50, true, "csv", true, 3, 2, true, false, true⟩).1 =
        [structPrimaryCall
          ⟨"raw/d.csv", 50, true, "csv", true, 3, 2, true, false, true⟩]) :=
  ⟨⟨rfl, rfl, rfl⟩,
    claim_C2_amended_dedup_gate.1 _ rfl rfl,
    claim_C2_amended_dedup_gate.2.2.2.2 _ rfl rfl rfl⟩

/-! ### Path disjointness for the PPT structured-JSON artifact (C10) -/

lemma take_append_of_le {α : Type} {l1 l2 : List α} {n : Nat}
    (h : n ≤ l1.length) : (l1 ++ l2).take n = l1.take n := by
  rw [List.take_append_eq_append_take, Nat.sub_eq_zero_of_le h,
    List.take_zero, List.append_nil]

/-- Two strings with distinct fixed prefixes (up to a common position) are
distinct, whatever their suffixes. -/
lemma string_prefix_ne (p1 p2 s1 s2 : String) (n : Nat)
    (h1 : n ≤ p1.data.length) (h2 : n ≤ p2.data.length)
    (hne : p1.data.take n ≠ p2.data.take n) :
    p1 ++ s1 ≠ p2 ++ s2 := by
  intro h
  apply hne
  have hd : p1.data ++ s1.data = p2.data ++ s2.data := by
    rw [← String.data_append, ← String.data_append, h]
  calc p1.data.take n = (p1.data ++ s1.data).take n :=
        (take_append_of_le h1).symm
    _ = (p2.data ++ s2.data).take n := by rw [hd]
    _ = p2.data.take n := take_append_of_le h2

lemma pptJsonPath_eq (env : PptEnv) :
    pptJsonPath env = "processed/unstructured/ppt-structured/" ++
      ((⟨pyBaseRoot env.objectName⟩ : String) ++ ".json") :=
  String.append_assoc _ _ _

lemma pptTextPath_eq (env : PptEnv) :
    pptTextPath env = "processed/unstructured/text-extracted/" ++
      ((⟨pyBaseRoot env.objectName⟩ : String) ++ ".txt") :=
  String.append_assoc _ _ _

lemma pptImagePath_eq (env : PptEnv) (name : String) :
    pptImagePath env name = "processed/unstructured/ppt-images/" ++
      ((⟨pyBaseRoot env.objectName⟩ : String) ++ ("/" ++ name)) := by
  unfold pptImagePath
  rw [String.append_assoc, String.append_assoc]

lemma jsonPath_ne_tableKey (env : PptEnv) (name : String) :
    pptJsonPath env ≠ pptTableKey name := by
  rw [pptJsonPath_eq]
  exact string_prefix_ne _ _ _ _ 11 (by decide) (by decide) (by decide)

lemma jsonPath_ne_textPath (env env2 : PptEnv) :
    pptJsonPath env ≠ pptTextPath env2 := by
  rw [pptJsonPath_eq, pptTextPath_eq]
  exact string_prefix_ne _ _ _ _ 24 (by decide) (by decide) (by decide)

lemma jsonPath_ne_imagePath (env env2 : PptEnv) (name : String) :
    pptJsonPath env ≠ pptImagePath env2 name := by
  rw [pptJsonPath_eq, pptImagePath_eq]
  exact string_prefix_ne _ _ _ _ 28 (by decide) (by decide) (by decide)

/-- Any object-store put issued while persisting one PPT table targets that
table's derived key. -/
lemma pptPET_put {tbl : ExtractedTable} {p : String}
    (h : Event.putObject p ∈ (pptProcessExtractedTable tbl).1) :
    p = pptTableKey tbl.name := by
  unfold pptProcessExtractedTable pptTableBody at h
  split_ifs at h <;> simp_all

/-- Any object-store put issued by the PPT text step targets the
text-extracted path. -/
lemma pptTextStep_put {env : PptEnv} {t : String} {p : String}
    (h : Event.putObject p ∈ pptTextStep env t) :
    p = pptTextPath env := by
  unfold pptTextStep at h
  split_ifs at h <;> simp_all

/-- C10: ppt_pipeline never binds the name `json`; the slide-data
serialization step therefore always fails with a caught `NameError`, and no
invocation ever writes the structured-JSON derived artifact
`processed/unstructured/ppt-structured/<root>.json`. -/
theorem claim_C10_ppt_json_never_written :
    "json" ∉ pptModuleNames ∧
    (∀ env : PptEnv, pptJsonStep env = ([], some .nameError)) ∧
    (∀ env : PptEnv,
      Event.putObject (pptJsonPath env) ∉ (pptProcess env).1) := by
  refine ⟨by decide, fun env => rfl, ?_⟩
  intro env hmem
  unfold pptProcess at hmem
  by_cases hd : env.isDup = true
  · rw [if_pos hd] at hmem
    split at hmem <;> simp at hmem
  · rw [if_neg hd] at hmem
    by_cases hp : (!env.prsOk) = true
    · rw [if_pos hp] at hmem
      simp at hmem
    · rw [if_neg hp] at hmem
      have hjson : (pptJsonStep env).1 = [] := rfl
      rw [hjson] at hmem
      rcases List.mem_cons.mp hmem with h | hmem1
      · exact Event.noConfusion h
      · rcases List.mem_append.mp hmem1 with hmem2 | h
        · rcases List.mem_append.mp hmem2 with hmem3 | h
          · rcases List.mem_append.mp hmem3 with hmem4 | h
            · rcases List.mem_append.mp hmem4 with h | h
              · obtain ⟨t, _, ht⟩ := List.mem_flatMap.mp h
                exact jsonPath_ne_tableKey env t.name (pptPET_put ht)
              · exact jsonPath_ne_textPath env env (pptTextStep_put h)
            · simp at h
          · rcases hi : env.imagePutOk with _ | _
            · rw [hi] at h
              simp at h
            · rw [hi] at h
              rw [if_pos rfl] at h
              obtain ⟨n, _, hn⟩ := List.mem_map.mp h
              have heq : pptImagePath env n = pptJsonPath env := by
                have hn2 := hn
                simp only [Event.putObject.injEq] at hn2
                exact hn2
              exact jsonPath_ne_imagePath env env n heq.symm
        · split at h <;> simp at h

end DataLakehouse
